import Mathlib

/-!
Verification of the `what-the-shell` educational Unix-like filesystem.

This file is a shallow embedding, in Lean 4, of the C sources of the
repository (`src/my_filesystem/...`): the path module (`src/utils/common.c`,
the part stemming from `path.c`), the bitmap allocator (`src/utils/bitmap.c`),
the superblock, inode, and directory-entry modules, and the filesystem core
(`src/filesystem/fs.c`).  C strings are modelled as `List Char`, machine
integers as `Nat` with explicit `% 2^32` (resp. `% 2^16`) where the C code
relies on unsigned wrap-around, the disk as a map from block numbers to typed
block contents (an all-zero block decodes, under every view, to the record all
of whose fields are zero, exactly as the zero bytes do in C), and every
fallible C function as an `Except Int _` value carrying the C error code.
On an error return the mutated-in-place portions of the caller's in-memory
state are not propagated by the `Except` model; all theorems below either
condition on a call's result or evaluate closed executions, so this does not
affect any statement.  Each definition follows the control flow of the
corresponding C function line by line.
-/

namespace WTS

/-- C strings (`char *`) are modelled as lists of characters. -/
abbrev Str := List Char

/-- `String.toList` helper to write character lists readably. -/
def strOf (s : String) : Str := s.toList

-- === constants from include/common.h and config.h (BLOCK_SIZE, MAX_FILENAME per spec §4.6/§6) ===
def BLOCK_SIZE : Nat := 512
def INODE_SIZE : Nat := 128
def INODES_PER_BLOCK : Nat := BLOCK_SIZE / INODE_SIZE
def DENTRY_SIZE : Nat := 256
def DENTRIES_PER_BLOCK : Nat := BLOCK_SIZE / DENTRY_SIZE
def MAX_PATH : Nat := 1024
def MAX_FILENAME : Nat := 250
def MAGIC_NUMBER : Nat := 0x12345678
def INVALID_INODE_NUM : Nat := 0
def ROOT_INODE_NUM : Nat := 1
def SUPERBLOCK_BLOCK_NUM : Nat := 0
def INODE_TYPE_FREE : Nat := 0
def INODE_TYPE_FILE : Nat := 1
def INODE_TYPE_DIRECTORY : Nat := 2

-- error codes (include/common.h)
def SUCCESS : Int := 0
def ERROR_GENERIC : Int := -1
def ERROR_NOT_FOUND : Int := -2
def ERROR_EXISTS : Int := -3
def ERROR_NO_SPACE : Int := -4
def ERROR_INVALID : Int := -5
def ERROR_IO : Int := -6
def ERROR_PERMISSION : Int := -7

-- disk error codes (disk.h)
def DISK_SUCCESS : Int := 0
def DISK_ERROR_INVALID_BLOCK : Int := -5

-- open flags (fs.h)
def FS_O_RDONLY : Nat := 0x01
def FS_O_WRONLY : Nat := 0x02
def FS_O_RDWR : Nat := 0x03
def FS_O_CREAT : Nat := 0x08
def FS_O_APPEND : Nat := 0x10
def FS_O_TRUNC : Nat := 0x20

-- unsigned wrap-around helpers (uint32_t / uint16_t arithmetic)
def U32 : Nat := 4294967296
def U16 : Nat := 65536
def inc32 (x : Nat) : Nat := (x + 1) % U32
def dec32 (x : Nat) : Nat := (x + (U32 - 1)) % U32
def inc16 (x : Nat) : Nat := (x + 1) % U16
def dec16 (x : Nat) : Nat := (x + (U16 - 1)) % U16

-- path-module constants (path.h)
def PATH_SEPARATOR : Char := '/'
/-- the component `"."` -/
def CURRENT_DIR : Str := ['.']
/-- the component `".."` -/
def PARENT_DIR : Str := ['.', '.']

-- ===================================================================
-- Path module (src/utils/common.c, path functions)
-- ===================================================================

/-- `path_parse` result (`struct path_components`). -/
structure path_components where
  is_absolute : Bool
  components : List Str
deriving DecidableEq, Repr

/-- Tokenisation that `path_parse` performs with `strtok(temp, "/")`:
consecutive separators collapse, empty components are elided. -/
def splitComps : Str → List Str
  | [] => []
  | c :: rest =>
    if c = PATH_SEPARATOR then splitComps rest
    else (c :: rest.takeWhile (· ≠ PATH_SEPARATOR)) ::
         splitComps (rest.dropWhile (· ≠ PATH_SEPARATOR))
termination_by s => s.length
decreasing_by
  · simp only [List.length_cons]; omega
  · simp only [List.length_cons]
    have := (List.dropWhile_sublist (l := rest) (p := fun c => c ≠ PATH_SEPARATOR)).length_le
    omega

/-- `path_parse` (common.c): `NULL` (here `none`) iff the path is empty;
`is_absolute` iff the first character is the separator. -/
def path_parse (path : Str) : Option path_components :=
  match path with
  | [] => none
  | c :: rest => some ⟨c = PATH_SEPARATOR, splitComps (c :: rest)⟩

/-- `filename_is_valid` (common.c). -/
def filename_is_valid (f : Str) : Bool :=
  f ≠ [] && f.length < MAX_FILENAME && f ≠ CURRENT_DIR && f ≠ PARENT_DIR &&
  !(f.contains PATH_SEPARATOR) && f.all (fun c => !(c.toNat < 32))

/-- `path_is_valid` (common.c): non-empty, length below `MAX_PATH`, no control
bytes other than the separator, and every parsed component is a valid filename
or `.` or `..`. -/
def path_is_valid (p : Str) : Bool :=
  p ≠ [] && p.length < MAX_PATH &&
  p.all (fun c => !(c.toNat < 32 && c ≠ PATH_SEPARATOR)) &&
  (match path_parse p with
   | none => false
   | some pc => pc.components.all
       (fun comp => filename_is_valid comp || comp = CURRENT_DIR || comp = PARENT_DIR))

/-- `path_is_root` (common.c): `/` possibly with trailing slashes. -/
def path_is_root (p : Str) : Bool :=
  match p with
  | [] => false
  | c :: rest => c = PATH_SEPARATOR && rest.all (· = PATH_SEPARATOR)

/-- `remove_trailing_slashes` (common.c): strips trailing separators but
always keeps the first character. -/
def remove_trailing_slashes (p : Str) : Str :=
  match p with
  | [] => []
  | c :: rest => c :: ((rest.reverse.dropWhile (· = PATH_SEPARATOR)).reverse)

/-- `path_split` (common.c): parent and final component.  Mirrors the C
control flow, including the `strncpy` truncation of the filename at
`MAX_FILENAME - 1` characters. -/
def path_split (path : Str) : Except Int (Str × Str) :=
  if path = [] then .error ERROR_INVALID
  else
    let temp := remove_trailing_slashes path
    let revname := temp.reverse.takeWhile (· ≠ PATH_SEPARATOR)
    if revname.length = temp.length then
      -- no separator: relative path, parent is the current directory
      .ok (CURRENT_DIR, temp.take (MAX_FILENAME - 1))
    else
      let parent_len := temp.length - revname.length - 1
      let name := revname.reverse
      if parent_len = 0 then
        if name = [] then .error ERROR_INVALID
        else .ok ([PATH_SEPARATOR], name.take (MAX_FILENAME - 1))
      else
        if parent_len ≥ MAX_PATH then .error ERROR_INVALID
        else if name = [] then .error ERROR_INVALID
        else .ok (temp.take parent_len, name.take (MAX_FILENAME - 1))

/-- One step of the `path_normalize` loop (common.c): drop `.`, pop for `..`
when the stack is non-empty with a non-`..` top, keep a literal `..` for
relative paths otherwise, push every other component. -/
def normStep (abs : Bool) (st : List Str) (comp : Str) : List Str :=
  if comp = CURRENT_DIR then st
  else if comp = PARENT_DIR then
    if st ≠ [] ∧ st.getLast? ≠ some PARENT_DIR then st.dropLast
    else if !abs then st ++ [PARENT_DIR]
    else st
  else st ++ [comp]

/-- The normalized component list built by `path_normalize`'s loop. -/
def normComps (abs : Bool) (cs : List Str) : List Str :=
  cs.foldl (normStep abs) []

/-- Joining components with single separators, as the result-building loop of
`path_normalize` does. -/
def joinComps : List Str → Str
  | [] => []
  | [x] => x
  | x :: y :: ys => x ++ PATH_SEPARATOR :: joinComps (y :: ys)

/-- Rendering of the normalized components (common.c): a leading separator for
absolute paths; an empty result becomes `/` or `.`. -/
def renderPath (abs : Bool) (cs : List Str) : Str :=
  let r := (if abs then [PATH_SEPARATOR] else []) ++ joinComps cs
  if r = [] then (if abs then [PATH_SEPARATOR] else CURRENT_DIR) else r

/-- `path_normalize` (common.c): `NULL` (here `none`) iff parsing fails,
i.e. iff the path is empty. -/
def path_normalize (path : Str) : Option Str :=
  (path_parse path).map fun pc =>
    renderPath pc.is_absolute (normComps pc.is_absolute pc.components)

/-- Written from the spec's words (§4.6 `normalize`), for the refinement
claim: walks components, drops `.`; for `..` it pops the previous component
when a real (non-`..`) previous component exists; a `..` at the root of an
absolute path is silently discarded, while for relative paths a `..` that
cannot pop is preserved literally; every other component is appended. -/
def specNormStep (abs : Bool) (st : List Str) (comp : Str) : List Str :=
  if comp = CURRENT_DIR then st
  else if comp = PARENT_DIR then
    match st.getLast? with
    | some prev =>
      if prev ≠ PARENT_DIR then st.dropLast
      else if abs then st else st ++ [PARENT_DIR]
    | none => if abs then st else st ++ [PARENT_DIR]
  else st ++ [comp]

/-- Written from the spec's words (§4.6 `normalize`): the output preserves
`is_absolute`, and an empty component result renders as `/` for absolute
inputs and `.` for relative ones. -/
def specNormalize (path : Str) : Option Str :=
  (path_parse path).map fun pc =>
    renderPath pc.is_absolute (pc.components.foldl (specNormStep pc.is_absolute) [])

/-- The shape invariant of normalized component lists: a (possibly empty)
block of leading `..` components — none at all for absolute paths — followed
by components that are neither `.` nor `..`. -/
def isNormal (abs : Bool) (l : List Str) : Prop :=
  ∃ k rest, l = List.replicate k PARENT_DIR ++ rest ∧ (abs = true → k = 0) ∧
    ∀ x ∈ rest, x ≠ PARENT_DIR ∧ x ≠ CURRENT_DIR

-- ===================================================================
-- Bitmap (src/utils/bitmap.c)
-- ===================================================================

/-- `struct bitmap`: `size_bits` is the length of `data`. -/
structure bitmap where
  data : List Bool
deriving DecidableEq, Repr

def bitmap.size_bits (b : bitmap) : Nat := b.data.length

/-- `bitmap_get`: `false` on an out-of-range index. -/
def bitmap_get (b : bitmap) (i : Nat) : Bool := b.data.getD i false

/-- `bitmap_set`: error code and (possibly) updated bitmap. -/
def bitmap_set (b : bitmap) (i : Nat) : Int × bitmap :=
  if i < b.data.length then (SUCCESS, ⟨b.data.set i true⟩) else ( ERROR_INVALID, b)

/-- `bitmap_clear`. -/
def bitmap_clear (b : bitmap) (i : Nat) : Int × bitmap :=
  if i < b.data.length then (SUCCESS, ⟨b.data.set i false⟩) else ( ERROR_INVALID, b)

/-- `bitmap_find_next_free`: smallest free index `≥ start_from`, else
`ERROR_NOT_FOUND`. -/
def bitmap_find_next_free (b : bitmap) (start_from : Nat) : Int :=
  match (List.range' start_from (b.data.length - start_from)).find?
      (fun i => !bitmap_get b i) with
  | some i => Int.ofNat i
  | none => ERROR_NOT_FOUND

/-- `bitmap_find_first_free`: starts the search at index 1 (bit 0 reserved). -/
def bitmap_find_first_free (b : bitmap) : Int := bitmap_find_next_free b 1

/-- `bitmap_count_free`. -/
def bitmap_count_free (b : bitmap) : Nat := b.data.countP (fun x => !x)

/-- `bitmap_count_used`. -/
def bitmap_count_used (b : bitmap) : Nat := b.size_bits - bitmap_count_free b

/-- `bitmap_create`: `NULL` (here `none`) iff `num_bits = 0`. -/
def bitmap_create (num_bits : Nat) : Option bitmap :=
  if num_bits = 0 then none else some ⟨List.replicate num_bits false⟩

-- ===================================================================
-- On-disk structures (include/common.h) and the disk emulator (disk.c)
-- ===================================================================

/-- `struct superblock` (common.h); the `reserved` padding is omitted. -/
structure superblock where
  magic_number : Nat
  total_blocks : Nat
  total_inodes : Nat
  free_blocks : Nat
  free_inodes : Nat
  block_size : Nat
  inode_size : Nat
  block_bitmap_start : Nat
  block_bitmap_blocks : Nat
  inode_bitmap_start : Nat
  inode_bitmap_blocks : Nat
  inode_table_start : Nat
  inode_table_blocks : Nat
  first_data_block : Nat
  created_time : Nat
  last_mount_time : Nat
  mount_count : Nat
deriving DecidableEq, Repr

/-- `struct inode` (common.h); `direct` always has length 12; the padding
fields are omitted. -/
structure inode where
  type : Nat
  size : Nat
  blocks_used : Nat
  direct : List Nat
  indirect : Nat
  created_time : Nat
  modified_time : Nat
  accessed_time : Nat
  permissions : Nat
  links_count : Nat
deriving DecidableEq, Repr

/-- The all-zero inode record, as decoded from zero bytes. -/
def zero_inode : inode :=
  ⟨0, 0, 0, List.replicate 12 0, 0, 0, 0, 0, 0, 0⟩

/-- `struct dentry` (common.h). -/
structure dentry where
  inode_num : Nat
  name_len : Nat
  file_type : Nat
  name : Str
deriving DecidableEq, Repr

/-- The all-zero dentry (a free slot), as decoded from zero bytes. -/
def zero_dentry : dentry := ⟨0, 0, 0, []⟩

/-- The all-zero superblock, as decoded from zero bytes (its magic number 0
is invalid). -/
def zero_superblock : superblock :=
  ⟨0, 0, 0, 0, 0, 0, 0, 0, 0, 0, 0, 0, 0, 0, 0, 0, 0⟩

/-- A 512-byte block of the backing image, under the typed view with which
the C code last wrote it.  `zero` is a fresh all-zero block; reading any view
out of it yields the all-zero record of that view, exactly as the zero bytes
decode in C.  (A block is never read under a different view than it holds in
the executions traced below; the catch-all cases of the view functions return
the zero record.) -/
inductive Block where
  | zero
  | sb (s : superblock)
  | bits (l : List Bool)
  | inodes (l : List inode)
  | dirents (l : List dentry)
  | ptrs (l : List Nat)
  | raw (l : List Nat)
deriving DecidableEq, Repr

def Block.asSb : Block → superblock
  | .sb s => s
  | _ => zero_superblock

def Block.asBits : Block → List Bool
  | .bits l => l
  | _ => List.replicate (BLOCK_SIZE * 8) false

def Block.asInodes : Block → List inode
  | .inodes l => l
  | _ => List.replicate INODES_PER_BLOCK zero_inode

def Block.asDirents : Block → List dentry
  | .dirents l => l
  | _ => List.replicate DENTRIES_PER_BLOCK zero_dentry

def Block.asPtrs : Block → List Nat
  | .ptrs l => l
  | _ => List.replicate (BLOCK_SIZE / 4) 0

def Block.asBytes : Block → List Nat
  | .raw l => l
  | _ => List.replicate BLOCK_SIZE 0

/-- `disk_t` (disk.c): a memory-mapped image of `nblocks` 512-byte blocks. -/
structure disk_t where
  nblocks : Nat
  data : Nat → Block

/-- `disk_read_block`: fails with `DISK_ERROR_INVALID_BLOCK` out of range. -/
def disk_read_block (d : disk_t) (n : Nat) : Except Int Block :=
  if n < d.nblocks then .ok (d.data n) else .error DISK_ERROR_INVALID_BLOCK

/-- `disk_write_block`. -/
def disk_write_block (d : disk_t) (n : Nat) (b : Block) : Except Int disk_t :=
  if n < d.nblocks then
    .ok { d with data := fun m => if m = n then b else d.data m }
  else .error DISK_ERROR_INVALID_BLOCK

/-- `disk_get_blocks`. -/
def disk_get_blocks (d : disk_t) : Nat := d.nblocks

/-- The C idiom `if (call(...) != SUCCESS) return ERROR_IO;`: propagate the
success value, turn any failure into ` ERROR_IO`. -/
def orIO {α : Type} : Except Int α → Except Int α
  | .ok a => .ok a
  | .error _ => .error ERROR_IO

/-- The C idiom of calling a state-mutating function and ignoring its result:
keep the old state if the call failed. -/
def writeIgnore {α : Type} (dflt : α) : Except Int α → α
  | .ok a => a
  | .error _ => dflt

-- ===================================================================
-- Superblock module (superblock.c)
-- ===================================================================

/-- `superblock_is_valid` / `is_superblock_valid` / `superblock_valid`
(three spellings in the sources, all checking the magic number). -/
def superblock_is_valid (s : superblock) : Bool := s.magic_number = MAGIC_NUMBER

/-- `superblock_read` (superblock.c): read block 0; `ERROR_IO` on a failed
read, `ERROR_INVALID` on a bad magic number. -/
def superblock_read (d : disk_t) : Except Int superblock :=
  match disk_read_block d SUPERBLOCK_BLOCK_NUM with
  | .error _ => .error ERROR_IO
  | .ok b =>
    if superblock_is_valid b.asSb then .ok b.asSb else .error ERROR_INVALID

/-- `superblock_write` (superblock.c). -/
def superblock_write (d : disk_t) (s : superblock) : Except Int disk_t :=
  match disk_write_block d SUPERBLOCK_BLOCK_NUM (.sb s) with
  | .error _ => .error ERROR_IO
  | .ok d2 => .ok d2

/-- `BLOCKS_NEEDED` (common.h): blocks needed to hold `size` bytes. -/
def BLOCKS_NEEDED (size : Nat) : Nat := (size + (BLOCK_SIZE - 1)) / BLOCK_SIZE

/-- `superblock_init` (superblock.c, current 4-argument version): rejects
`total_blocks >= disk_get_blocks(disk)` with `ERROR_NO_SPACE`, computes the
greedy layout starting at block 1, rejects `first_data_block >= total_blocks`
with `ERROR_NO_SPACE`.  `free_inodes` is debited by one for the root. -/
def superblock_init (d : disk_t) (total_blocks total_inodes : Nat) (now : Nat) :
    Except Int superblock :=
  if total_blocks ≥ disk_get_blocks d then .error ERROR_NO_SPACE
  else
    let block_bitmap_blocks := BLOCKS_NEEDED ((total_blocks + 7) / 8)
    let inode_bitmap_blocks := BLOCKS_NEEDED ((total_inodes + 7) / 8)
    let inode_table_blocks := BLOCKS_NEEDED (total_inodes * INODE_SIZE)
    let current_block := 1 + block_bitmap_blocks + inode_bitmap_blocks + inode_table_blocks
    if current_block ≥ total_blocks then .error ERROR_NO_SPACE
    else .ok
      { magic_number := MAGIC_NUMBER
        total_blocks := total_blocks
        total_inodes := total_inodes
        free_blocks := total_blocks - current_block
        free_inodes := dec32 total_inodes
        block_size := BLOCK_SIZE
        inode_size := INODE_SIZE
        block_bitmap_start := 1
        block_bitmap_blocks := block_bitmap_blocks
        inode_bitmap_start := 1 + block_bitmap_blocks
        inode_bitmap_blocks := inode_bitmap_blocks
        inode_table_start := 1 + block_bitmap_blocks + inode_bitmap_blocks
        inode_table_blocks := inode_table_blocks
        first_data_block := current_block
        created_time := now
        last_mount_time := 0
        mount_count := 0 }

-- ===================================================================
-- Inode module (inode.c)
-- ===================================================================

/-- `inode_get_disk_position`: containing block and slot index (the C code
returns a byte offset `slot * inode_size`). -/
def inode_get_disk_position (s : superblock) (inode_num : Nat) : Nat × Nat :=
  let inodes_per_block := s.block_size / s.inode_size
  (s.inode_table_start + inode_num / inodes_per_block, inode_num % inodes_per_block)

/-- `inode_read` (inode.c): reads the superblock from disk, locates the
inode, reads its containing block, extracts the slot. -/
def inode_read (d : disk_t) (inode_num : Nat) : Except Int inode := do
  let sb ← orIO (superblock_read d)
  let (block_num, slot) := inode_get_disk_position sb inode_num
  let blk ← orIO (disk_read_block d block_num)
  pure (blk.asInodes.getD slot zero_inode)

/-- `inode_write` (inode.c): read-modify-write of the containing block,
preserving the other three inodes. -/
def inode_write (d : disk_t) (inode_num : Nat) (ino : inode) : Except Int disk_t := do
  let sb ← orIO (superblock_read d)
  let (block_num, slot) := inode_get_disk_position sb inode_num
  let blk ← orIO (disk_read_block d block_num)
  orIO (disk_write_block d block_num (.inodes (blk.asInodes.set slot ino)))

/-- `inode_alloc` (inode.c): first free bit (skipping bit 0), set it, build
the fresh inode, persist it; roll the bit back and report ` ERROR_IO` on a
write failure. -/
def inode_alloc (d : disk_t) (inode_bitmap : bitmap) (ty : Nat) (permissions : Nat)
    (now : Nat) : Except Int (disk_t × bitmap × inode × Nat) :=
  let free_idx := bitmap_find_first_free inode_bitmap
  if free_idx < 0 then .error ERROR_NO_SPACE
  else
    let n := free_idx.toNat
    let bm2 := (bitmap_set inode_bitmap n).2
    let new_inode : inode :=
      { type := ty, size := 0, blocks_used := 0, direct := List.replicate 12 0,
        indirect := 0, created_time := now, modified_time := now,
        accessed_time := now, permissions := permissions, links_count := 1 }
    match inode_write d n new_inode with
    | .error _ => .error ERROR_IO
    | .ok d2 => .ok (d2, bm2, new_inode, n)

/-- Modelled from the spec: the current 5-argument `inode_free` implementation
(`inode.c`) is not present under `src/` — only its declaration (with the
doc comment of `part_003`) and an obsolete 3-argument version are.  Per spec
§4.4 it frees all non-zero direct block pointers and, if present, every
non-zero pointer in the indirect block plus the indirect block itself through
the block bitmap, reports the number of freed blocks through an out-parameter,
clears the inode bitmap bit, and overwrites the inode slot with a zeroed
record whose type is FREE; the caller adjusts the superblock counters. -/
def inode_free (d : disk_t) (inode_bitmap block_bitmap : bitmap) (inode_num : Nat) :
    Except Int (disk_t × bitmap × bitmap × Nat) := do
  let ino ← orIO (inode_read d inode_num)
  let step := fun (acc : bitmap × Nat) (p : Nat) =>
    if p ≠ 0 then ((bitmap_clear acc.1 p).2, acc.2 + 1) else acc
  let (bbm1, freed1) := ino.direct.foldl step (block_bitmap, 0)
  let (bbm2, freed2) ←
    if ino.indirect ≠ 0 then do
      let blk ← orIO (disk_read_block d ino.indirect)
      let (bbmA, freedA) := blk.asPtrs.foldl step (bbm1, freed1)
      pure ((bitmap_clear bbmA ino.indirect).2, freedA + 1)
    else
      pure (bbm1, freed1)
  let ibm2 := (bitmap_clear inode_bitmap inode_num).2
  let zeroed : inode := { zero_inode with type := INODE_TYPE_FREE }
  let d2 ← orIO (inode_write d inode_num zeroed)
  pure (d2, ibm2, bbm2, freed2)

-- ===================================================================
-- Directory-entry module (dentry.c)
-- ===================================================================

/-- `dentry_is_valid_name` (dentry.c): non-empty, below `MAX_FILENAME`,
no separator, not `.` or `..`. -/
def dentry_is_valid_name (name : Str) : Bool :=
  name ≠ [] && name.length < MAX_FILENAME &&
  !(name.contains PATH_SEPARATOR) && name ≠ CURRENT_DIR && name ≠ PARENT_DIR

/-- `dentry_is_valid` (dentry.c): structural validity of an in-memory dentry. -/
def dentry_is_valid (e : dentry) : Bool :=
  e.name_len ≠ 0 && e.name ≠ [] && e.name_len = e.name.length &&
  e.inode_num ≠ 0 && (e.file_type = INODE_TYPE_FILE || e.file_type = INODE_TYPE_DIRECTORY)

/-- `dentry_create` (dentry.c): builds a validated in-memory dentry; the name
validator `dentry_is_valid_name` (which rejects `.` and `..`) runs first. -/
def dentry_create (name : Str) (inode_num : Nat) (file_type : Nat) :
    Except Int dentry :=
  if ¬ dentry_is_valid_name name then .error ERROR_INVALID
  else if file_type ≠ INODE_TYPE_FILE ∧ file_type ≠ INODE_TYPE_DIRECTORY then
    .error ERROR_INVALID
  else if inode_num = 0 then .error ERROR_INVALID
  else .ok
    { inode_num := inode_num, file_type := file_type,
      name_len := name.length, name := name.take (MAX_FILENAME - 1) }

/-- The inner slot scan of `scan_dentry_block`: first slot with a non-zero
inode number and a matching name, threading the running global index. -/
def scan_slots (name : Str) : Nat → List dentry → (Option (dentry × Nat)) × Nat
  | gi, [] => (none, gi)
  | gi, e :: rest =>
    if e.inode_num ≠ 0 ∧ e.name = name then (some (e, gi), gi)
    else scan_slots name (gi + 1) rest

/-- `scan_dentry_block` (dentry.c): a zero block number reports "not found"
to the caller's loop without touching the index. -/
def scan_dentry_block (d : disk_t) (block_num : Nat) (name : Str) (gi : Nat) :
    Except Int ((Option (dentry × Nat)) × Nat) :=
  if block_num = 0 then .ok (none, gi)
  else match disk_read_block d block_num with
    | .error _ => .error ERROR_IO
    | .ok blk => .ok (scan_slots name gi (blk.asDirents.take DENTRIES_PER_BLOCK))

/-- The block loops of `dentry_find`: first match across a block list. -/
def find_in_blocks (d : disk_t) (name : Str) :
    Nat → List Nat → Except Int ((Option (dentry × Nat)) × Nat)
  | gi, [] => .ok (none, gi)
  | gi, b :: rest => do
    let (r, gi2) ← scan_dentry_block d b name gi
    match r with
    | some x => pure (some x, gi2)
    | none => find_in_blocks d name gi2 rest

/-- `dentry_find` (dentry.c): scan all direct blocks up to the first zero
pointer, then every non-zero pointer of the indirect block. -/
def dentry_find (d : disk_t) (dir_inode_num : Nat) (name : Str) :
    Except Int (dentry × Nat) := do
  let dir ← orIO (inode_read d dir_inode_num)
  if dir.type ≠ INODE_TYPE_DIRECTORY then .error ERROR_INVALID
  else do
    let (r, gi) ← find_in_blocks d name 0 ((dir.direct.take 12).takeWhile (· ≠ 0))
    match r with
    | some x => pure x
    | none =>
      if dir.indirect ≠ 0 then do
        let iblk ← orIO (disk_read_block d dir.indirect)
        let (r2, _) ← find_in_blocks d name gi
          ((iblk.asPtrs.take (BLOCK_SIZE / 4)).takeWhile (· ≠ 0))
        match r2 with
        | some x => pure x
        | none => .error ERROR_NOT_FOUND
      else .error ERROR_NOT_FOUND

/-- The fresh dirent block written by `dentry_add`'s allocation paths: the
new entry in slot 0, the rest zeroed. -/
def fresh_dirent_block (e : dentry) : Block :=
  .dirents (e :: List.replicate (DENTRIES_PER_BLOCK - 1) zero_dentry)

/-- Placing a dentry in the first free slot of an existing block
(`dentry_add`, existing-block case): returns `none` if the block is full.
On success the directory inode's `modified_time` is refreshed; the result of
that `inode_write` is ignored by the C code. -/
def dentry_add_in_block (d : disk_t) (dir_inode_num : Nat) (dir_inode : inode)
    (block_num : Nat) (new_dentry : dentry) (now : Nat) :
    Except Int (Option disk_t) := do
  let blk ← orIO (disk_read_block d block_num)
  let slots := blk.asDirents.take DENTRIES_PER_BLOCK
  match slots.findIdx? (fun e => decide (e.inode_num = 0)) with
  | none => pure none
  | some j =>
    match disk_write_block d block_num (.dirents (slots.set j new_dentry)) with
    | .error _ => .error ERROR_IO
    | .ok d2 =>
      let dir2 := { dir_inode with modified_time := now }
      pure (some (writeIgnore d2 (inode_write d2 dir_inode_num dir2)))

/-- The direct-block loop of `dentry_add`: allocate a fresh block at the
first zero direct pointer, otherwise fill a free slot of an existing block;
`none` when all 12 direct blocks are full. -/
def dentry_add_direct (d : disk_t) (bbm : bitmap) (dir_inode_num : Nat)
    (dir_inode : inode) (new_dentry : dentry) (now : Nat) :
    List Nat → Except Int (Option (disk_t × bitmap))
  | [] => pure none
  | i :: rest =>
    if dir_inode.direct.getD i 0 = 0 then
      -- allocate a new block for this direct slot
      let nbI := bitmap_find_first_free bbm
      if nbI < 0 then .error ERROR_NO_SPACE
      else
        let nb := nbI.toNat
        let (code, bbm2) := bitmap_set bbm nb
        if code ≠ SUCCESS then .error ERROR_GENERIC
        else
          let dir2 := { dir_inode with
                        direct := dir_inode.direct.set i nb
                        blocks_used := inc32 dir_inode.blocks_used
                        modified_time := now }
          match inode_write d dir_inode_num dir2 with
          | .error _ => .error ERROR_IO
          | .ok d2 =>
            match disk_write_block d2 nb (fresh_dirent_block new_dentry) with
            | .error _ => .error ERROR_IO
            | .ok d3 => pure (some (d3, bbm2))
    else do
      let r ← dentry_add_in_block d dir_inode_num dir_inode
        (dir_inode.direct.getD i 0) new_dentry now
      match r with
      | some d2 => pure (some (d2, bbm))
      | none => dentry_add_direct d bbm dir_inode_num dir_inode new_dentry now rest

/-- The indirect-pointer loop of `dentry_add`: allocate a fresh data block at
the first zero pointer, otherwise fill a free slot of an existing block;
`ERROR_NO_SPACE` when all 128 pointers are exhausted. -/
def dentry_add_indirect (d : disk_t) (bbm : bitmap) (dir_inode_num : Nat)
    (dir_inode : inode) (ptrs : List Nat) (new_dentry : dentry) (now : Nat) :
    List Nat → Except Int (disk_t × bitmap)
  | [] => .error ERROR_NO_SPACE
  | i :: rest =>
    if ptrs.getD i 0 = 0 then
      let nbI := bitmap_find_first_free bbm
      if nbI < 0 then .error ERROR_NO_SPACE
      else
        let nb := nbI.toNat
        let bbm2 := (bitmap_set bbm nb).2
        match disk_write_block d dir_inode.indirect (.ptrs (ptrs.set i nb)) with
        | .error _ => .error ERROR_IO
        | .ok d2 =>
          let dir2 := { dir_inode with
                        blocks_used := inc32 dir_inode.blocks_used
                        modified_time := now }
          let d3 := writeIgnore d2 (inode_write d2 dir_inode_num dir2)
          match disk_write_block d3 nb (fresh_dirent_block new_dentry) with
          | .error _ => .error ERROR_IO
          | .ok d4 => pure (d4, bbm2)
    else do
      let r ← dentry_add_in_block d dir_inode_num dir_inode (ptrs.getD i 0) new_dentry now
      match r with
      | some d2 => pure (d2, bbm)
      | none => dentry_add_indirect d bbm dir_inode_num dir_inode ptrs new_dentry now rest

/-- `dentry_add` (dentry.c): validity check, duplicate check, first empty
slot across direct then indirect blocks, allocating blocks as needed. -/
def dentry_add (d : disk_t) (dir_inode_num : Nat) (new_dentry : dentry)
    (block_bitmap : bitmap) (now : Nat) : Except Int (disk_t × bitmap) := do
  if ¬ dentry_is_valid new_dentry then .error ERROR_INVALID
  else do
    let dir ← orIO (inode_read d dir_inode_num)
    if dir.type ≠ INODE_TYPE_DIRECTORY then .error ERROR_INVALID
    else
      match dentry_find d dir_inode_num new_dentry.name with
      | .ok _ => .error ERROR_EXISTS
      | .error _ => do
        let r ← dentry_add_direct d block_bitmap dir_inode_num dir new_dentry now
          (List.range 12)
        match r with
        | some result => pure result
        | none => do
          -- all 12 direct blocks full: use the indirect block
          let (d1, bbm1, dir1) ←
            if dir.indirect = 0 then
              let ibI := bitmap_find_first_free block_bitmap
              if ibI < 0 then .error ERROR_NO_SPACE
              else
                let ib := ibI.toNat
                let bbmA := (bitmap_set block_bitmap ib).2
                let dirA := { dir with
                              indirect := ib
                              blocks_used := inc32 dir.blocks_used }
                match inode_write d dir_inode_num dirA with
                | .error _ => .error ERROR_IO
                | .ok dA =>
                  -- the result of zero-initializing the indirect block is ignored
                  pure (writeIgnore dA (disk_write_block dA ib
                    (.ptrs (List.replicate (BLOCK_SIZE / 4) 0))), bbmA, dirA)
            else pure (d, block_bitmap, dir)
          let iblk ← orIO (disk_read_block d1 dir1.indirect)
          dentry_add_indirect d1 bbm1 dir_inode_num dir1
            (iblk.asPtrs.take (BLOCK_SIZE / 4)) new_dentry now
            (List.range (BLOCK_SIZE / 4))

/-- `remove_dentry_from_block` (dentry.c): zero the first matching slot. -/
def remove_dentry_from_block (d : disk_t) (block_num : Nat) (name : Str) :
    Except Int (disk_t × Bool) :=
  if block_num = 0 then .error ERROR_INVALID
  else match disk_read_block d block_num with
    | .error _ => .error ERROR_IO
    | .ok blk =>
      let slots := blk.asDirents.take DENTRIES_PER_BLOCK
      match slots.findIdx? (fun e => decide (e.inode_num ≠ 0 ∧ e.name = name)) with
      | some j =>
        match disk_write_block d block_num (.dirents (slots.set j zero_dentry)) with
        | .error _ => .error ERROR_IO
        | .ok d2 => .ok (d2, true)
      | none => .ok (d, false)

/-- The block loops of `dentry_remove`; on success the directory inode's
`modified_time` is refreshed (`inode_write` result ignored). -/
def remove_in_blocks (d : disk_t) (name : Str) (dir_inode_num : Nat)
    (dir_inode : inode) (now : Nat) : List Nat → Except Int (Option disk_t)
  | [] => .ok none
  | b :: rest => do
    let (d2, found) ← remove_dentry_from_block d b name
    if found then
      let dir2 := { dir_inode with modified_time := now }
      pure (some (writeIgnore d2 (inode_write d2 dir_inode_num dir2)))
    else remove_in_blocks d2 name dir_inode_num dir_inode now rest

/-- `dentry_remove` (dentry.c). -/
def dentry_remove (d : disk_t) (dir_inode_num : Nat) (name : Str) (now : Nat) :
    Except Int disk_t := do
  let dir ← orIO (inode_read d dir_inode_num)
  if dir.type ≠ INODE_TYPE_DIRECTORY then .error ERROR_INVALID
  else do
    let r ← remove_in_blocks d name dir_inode_num dir now
      ((dir.direct.take 12).takeWhile (· ≠ 0))
    match r with
    | some d2 => pure d2
    | none =>
      if dir.indirect ≠ 0 then do
        let iblk ← orIO (disk_read_block d dir.indirect)
        let r2 ← remove_in_blocks d name dir_inode_num dir now
          ((iblk.asPtrs.take (BLOCK_SIZE / 4)).takeWhile (· ≠ 0))
        match r2 with
        | some d2 => pure d2
        | none => .error ERROR_NOT_FOUND
      else .error ERROR_NOT_FOUND

/-- The gathering loop of `dentry_list`; the C code runs a separate counting
pass first and then fills an array in the same traversal order, which yields
exactly this concatenation. -/
def dentry_list_blocks (d : disk_t) : List Nat → Except Int (List dentry)
  | [] => .ok []
  | b :: rest =>
    if b = 0 then dentry_list_blocks d rest
    else match disk_read_block d b with
      | .error _ => .error ERROR_IO
      | .ok blk => do
        let restl ← dentry_list_blocks d rest
        pure (((blk.asDirents.take DENTRIES_PER_BLOCK).filter
          (fun e => decide (e.inode_num ≠ 0))) ++ restl)

/-- `dentry_list` (dentry.c). -/
def dentry_list (d : disk_t) (dir_inode_num : Nat) : Except Int (List dentry) := do
  let dir ← orIO (inode_read d dir_inode_num)
  if dir.type ≠ INODE_TYPE_DIRECTORY then .error ERROR_INVALID
  else do
    let part1 ← dentry_list_blocks d ((dir.direct.take 12).takeWhile (· ≠ 0))
    if dir.indirect ≠ 0 then do
      let iblk ← orIO (disk_read_block d dir.indirect)
      let part2 ← dentry_list_blocks d
        ((iblk.asPtrs.take (BLOCK_SIZE / 4)).takeWhile (· ≠ 0))
      pure (part1 ++ part2)
    else pure part1

-- ===================================================================
-- Filesystem core (fs.h / fs.c)
-- ===================================================================

/-- `filesystem_t` (fs.h). -/
structure filesystem_t where
  disk : disk_t
  sb : superblock
  block_bitmap : bitmap
  inode_bitmap : bitmap
  is_mounted : Bool
  current_dir_inode : Nat

/-- `open_file_t` (fs.h); the `fs` back-reference is passed explicitly to the
operations instead. -/
structure open_file_t where
  inode_num : Nat
  inode : inode
  offset : Nat
  flags : Nat

/-- `validate_parent_directory` (fs.c). -/
def validate_parent_directory (d : disk_t) (inode_num : Nat) : Int :=
  match inode_read d inode_num with
  | .error _ => ERROR_IO
  | .ok ino => if ino.type ≠ INODE_TYPE_DIRECTORY then ERROR_INVALID else SUCCESS

/-- Per-iteration block resolution shared by `read_inode_data`'s loop:
direct pointer below index 12, otherwise the indirect block's pointer
(re-read from disk each iteration, as the C loop does). -/
def read_block_num (d : disk_t) (ino : inode) (idx : Nat) : Except Int Nat :=
  if idx < 12 then .ok (ino.direct.getD idx 0)
  else if ino.indirect = 0 then .error ERROR_INVALID
  else match disk_read_block d ino.indirect with
    | .error _ => .error ERROR_IO
    | .ok blk =>
      if idx - 12 ≥ BLOCK_SIZE / 4 then .error ERROR_INVALID
      else .ok (blk.asPtrs.getD (idx - 12) 0)

/-- The copy loop of `read_inode_data`: a zero pointer is a hole read as
zeros; `intra` is the intra-block offset, zero after the first iteration. -/
def read_loop (d : disk_t) (ino : inode) (idx intra remaining : Nat)
    (h : intra < BLOCK_SIZE) : Except Int (List Nat) :=
  if hr : remaining = 0 then .ok []
  else
    match read_block_num d ino idx with
    | .error e => .error e
    | .ok block_num =>
      let chunk := min remaining (BLOCK_SIZE - intra)
      if block_num = 0 then
        match read_loop d ino (idx + 1) 0 (remaining - chunk)
            (by simp [BLOCK_SIZE]) with
        | .error e => .error e
        | .ok rest => .ok (List.replicate chunk 0 ++ rest)
      else
        match disk_read_block d block_num with
        | .error _ => .error ERROR_IO
        | .ok blk =>
          match read_loop d ino (idx + 1) 0 (remaining - chunk)
              (by simp [BLOCK_SIZE]) with
          | .error e => .error e
          | .ok rest => .ok (((blk.asBytes.drop intra).take chunk) ++ rest)
termination_by remaining
decreasing_by
  all_goals
    have h2 : 1 ≤ min remaining (BLOCK_SIZE - intra) := le_min (by omega) (by omega)
    have h3 := Nat.min_le_left remaining (BLOCK_SIZE - intra)
    omega

/-- `read_inode_data` (fs.c): clip to the inode size; zero bytes to read is
an immediate success. -/
def read_inode_data (d : disk_t) (ino : inode) (offset : Nat) (size : Nat) :
    Except Int (List Nat × Nat) :=
  let available := if offset < ino.size then ino.size - offset else 0
  let to_read := min size available
  if to_read = 0 then .ok ([], 0)
  else
    match read_loop d ino (offset / BLOCK_SIZE) (offset % BLOCK_SIZE) to_read
        (Nat.mod_lt _ (by simp [BLOCK_SIZE])) with
    | .error e => .error e
    | .ok bytes => .ok (bytes, to_read)

/-- Splicing `chunk` bytes of `buf` into `base` at offset `intra`
(`memcpy(block_buffer + start_offset, buf_ptr, chunk)`). -/
def splice (base : List Nat) (intra : Nat) (buf : List Nat) (chunk : Nat) : List Nat :=
  base.take intra ++ buf.take chunk ++ base.drop (intra + chunk)

/-- The write loop of `write_inode_data`: allocates missing blocks (and the
indirect block) through the block bitmap, zero-initializes fresh blocks,
reads existing blocks for partial writes, and threads the `inode_modified`
flag. -/
def write_loop (d : disk_t) (bbm : bitmap) (ino : inode) (inode_num : Nat)
    (idx intra : Nat) (buf : List Nat) (remaining : Nat) (modified : Bool)
    (h : intra < BLOCK_SIZE) : Except Int (disk_t × bitmap × inode × Bool) :=
  if hr : remaining = 0 then .ok (d, bbm, ino, modified)
  else
    let chunk := min remaining (BLOCK_SIZE - intra)
    if idx < 12 then
      let block_num := ino.direct.getD idx 0
      if block_num = 0 then
        -- allocate a fresh direct data block
        let nbI := bitmap_find_first_free bbm
        if nbI < 0 then .error ERROR_NO_SPACE
        else
          let nb := nbI.toNat
          let bbm2 := (bitmap_set bbm nb).2
          let ino2 := { ino with
                        direct := ino.direct.set idx nb
                        blocks_used := inc32 ino.blocks_used }
          match disk_write_block d nb
              (.raw (splice (List.replicate BLOCK_SIZE 0) intra buf chunk)) with
          | .error _ => .error ERROR_IO
          | .ok d2 =>
            write_loop d2 bbm2 ino2 inode_num (idx + 1) 0 (buf.drop chunk)
              (remaining - chunk) true (by simp [BLOCK_SIZE])
      else
        -- existing block: read it first iff the write is partial
        match (if intra ≠ 0 ∨ remaining < BLOCK_SIZE
               then (disk_read_block d block_num).map Block.asBytes
               else .ok (List.replicate BLOCK_SIZE 0)) with
        | .error _ => .error ERROR_IO
        | .ok base =>
          match disk_write_block d block_num (.raw (splice base intra buf chunk)) with
          | .error _ => .error ERROR_IO
          | .ok d2 =>
            write_loop d2 bbm ino inode_num (idx + 1) 0 (buf.drop chunk)
              (remaining - chunk) modified (by simp [BLOCK_SIZE])
    else
      if idx - 12 ≥ BLOCK_SIZE / 4 then .error ERROR_NO_SPACE
      else
        -- make sure the indirect block exists
        match (if ino.indirect = 0 then
                 let niI := bitmap_find_first_free bbm
                 if niI < 0 then .error ERROR_NO_SPACE
                 else
                   let ni := niI.toNat
                   let bbmA := (bitmap_set bbm ni).2
                   let inoA := { ino with
                                 indirect := ni
                                 blocks_used := inc32 ino.blocks_used }
                   match disk_write_block d ni
                       (.ptrs (List.replicate (BLOCK_SIZE / 4) 0)) with
                   | .error _ => .error ERROR_IO
                   | .ok dA => .ok (dA, bbmA, inoA, true)
               else .ok (d, bbm, ino, modified) :
               Except Int (disk_t × bitmap × inode × Bool)) with
        | .error e => .error e
        | .ok (d1, bbm1, ino1, modified1) =>
          match disk_read_block d1 ino1.indirect with
          | .error _ => .error ERROR_IO
          | .ok iblk =>
            let ptrs := iblk.asPtrs.take (BLOCK_SIZE / 4)
            let block_num := ptrs.getD (idx - 12) 0
            if block_num = 0 then
              -- allocate a fresh data block behind the indirect pointer
              let nbI := bitmap_find_first_free bbm1
              if nbI < 0 then .error ERROR_NO_SPACE
              else
                let nb := nbI.toNat
                let bbm2 := (bitmap_set bbm1 nb).2
                let ino2 := { ino1 with blocks_used := inc32 ino1.blocks_used }
                match disk_write_block d1 ino1.indirect
                    (.ptrs (ptrs.set (idx - 12) nb)) with
                | .error _ => .error ERROR_IO
                | .ok d2 =>
                  match disk_write_block d2 nb
                      (.raw (splice (List.replicate BLOCK_SIZE 0) intra buf chunk)) with
                  | .error _ => .error ERROR_IO
                  | .ok d3 =>
                    write_loop d3 bbm2 ino2 inode_num (idx + 1) 0 (buf.drop chunk)
                      (remaining - chunk) true (by simp [BLOCK_SIZE])
            else
              match (if intra ≠ 0 ∨ remaining < BLOCK_SIZE
                     then (disk_read_block d1 block_num).map Block.asBytes
                     else .ok (List.replicate BLOCK_SIZE 0)) with
              | .error _ => .error ERROR_IO
              | .ok base =>
                match disk_write_block d1 block_num
                    (.raw (splice base intra buf chunk)) with
                | .error _ => .error ERROR_IO
                | .ok d2 =>
                  write_loop d2 bbm1 ino1 inode_num (idx + 1) 0 (buf.drop chunk)
                    (remaining - chunk) modified1 (by simp [BLOCK_SIZE])
termination_by remaining
decreasing_by
  all_goals
    have h2 : 1 ≤ min remaining (BLOCK_SIZE - intra) := le_min (by omega) (by omega)
    have h3 := Nat.min_le_left remaining (BLOCK_SIZE - intra)
    omega

/-- `write_inode_data` (fs.c): run the write loop (`remaining` is the
`uint32_t` truncation of the `size_t` byte count), grow the size to
`offset + size` for extending writes, refresh `modified_time`, persist the
inode, and report the full requested size as written. -/
def write_inode_data (d : disk_t) (bbm : bitmap) (ino : inode) (inode_num : Nat)
    (offset : Nat) (buf : List Nat) (now : Nat) :
    Except Int (disk_t × bitmap × inode × Nat) :=
  let size := buf.length
  match write_loop d bbm ino inode_num (offset / BLOCK_SIZE) (offset % BLOCK_SIZE)
      buf (size % U32) false (Nat.mod_lt _ (by simp [BLOCK_SIZE])) with
  | .error e => .error e
  | .ok (d2, bbm2, ino2, _) =>
    let end_pos := (offset + size) % U32
    let ino3 := if end_pos > ino2.size then { ino2 with size := end_pos } else ino2
    let ino4 := { ino3 with modified_time := now }
    match inode_write d2 inode_num ino4 with
    | .error _ => .error ERROR_IO
    | .ok d3 => .ok (d3, bbm2, ino4, size)

/-- The bits of the in-memory bitmap destined for region block `i`
(512 bytes each, zero-padded at the tail). -/
def bitmap_block_bits (bm : bitmap) (i : Nat) : List Bool :=
  let part := (bm.data.drop (i * (BLOCK_SIZE * 8))).take (BLOCK_SIZE * 8)
  part ++ List.replicate (BLOCK_SIZE * 8 - part.length) false

/-- The write loop of `save_bitmaps` over one region. -/
def save_bitmap_region (d : disk_t) (bm : bitmap) (start : Nat) :
    Nat → Except Int disk_t
  | 0 => .ok d
  | n + 1 => do
    -- blocks are written in increasing order: block `count - 1 - n` last
    let d2 ← save_bitmap_region d bm start n
    match disk_write_block d2 (start + n) (.bits (bitmap_block_bits bm n)) with
    | .error _ => .error ERROR_IO
    | .ok d3 => .ok d3

/-- `save_bitmaps` (fs.c). -/
def save_bitmaps (fs : filesystem_t) : Except Int filesystem_t := do
  let d1 ← save_bitmap_region fs.disk fs.block_bitmap fs.sb.block_bitmap_start
    fs.sb.block_bitmap_blocks
  let d2 ← save_bitmap_region d1 fs.inode_bitmap fs.sb.inode_bitmap_start
    fs.sb.inode_bitmap_blocks
  pure { fs with disk := d2 }

/-- The read loop of `load_bitmaps` over one region, concatenating bits. -/
def load_bitmap_region (d : disk_t) (start : Nat) :
    Nat → Except Int (List Bool)
  | 0 => .ok []
  | n + 1 => do
    let front ← load_bitmap_region d start n
    match disk_read_block d (start + n) with
    | .error _ => .error ERROR_IO
    | .ok blk => .ok (front ++ (blk.asBits.take (BLOCK_SIZE * 8)))

/-- `load_bitmaps` (fs.c): create both bitmaps sized by the superblock
counts and fill them from the bitmap regions (tail bits beyond the count are
truncated). -/
def load_bitmaps (d : disk_t) (sb : superblock) : Except Int (bitmap × bitmap) := do
  match bitmap_create sb.total_blocks, bitmap_create sb.total_inodes with
  | some _, some _ => do
    let bbits ← load_bitmap_region d sb.block_bitmap_start sb.block_bitmap_blocks
    let ibits ← load_bitmap_region d sb.inode_bitmap_start sb.inode_bitmap_blocks
    pure (⟨(bbits.take sb.total_blocks) ++
            List.replicate (sb.total_blocks - bbits.length) false⟩,
          ⟨(ibits.take sb.total_inodes) ++
            List.replicate (sb.total_inodes - ibits.length) false⟩)
  | _, _ => .error ERROR_GENERIC

/-- Marking a whole range of bits used (the reserved-region loops of
`fs_format`; the C code ignores `bitmap_set`'s result). -/
def bitmap_set_many (bm : bitmap) (start : Nat) : Nat → bitmap
  | 0 => bm
  | n + 1 => (bitmap_set (bitmap_set_many bm start n) (start + n)).2

/-- `fs_format` (fs.c): superblock, reserved-region marking, root inode
(which must come out as inode 1), the two special entries `.` and `..`,
`links_count = 2`, bitmap and superblock persistence; on a mid-format
failure the root inode is freed and the counters restored. -/
def fs_format (d0 : disk_t) (total_blocks total_inodes : Nat) (now : Nat) :
    Int × disk_t :=
  match superblock_init d0 total_blocks total_inodes now with
  | .error e => (e, d0)
  | .ok sb0 =>
  match superblock_write d0 sb0 with
  | .error _ => ( ERROR_IO, d0)
  | .ok d1 =>
  match load_bitmaps d1 sb0 with
  | .error _ => ( ERROR_IO, d1)
  | .ok (bbm0, ibm0) =>
  let bbm1 := bitmap_set_many bbm0 sb0.block_bitmap_start sb0.block_bitmap_blocks
  let bbm2 := bitmap_set_many bbm1 sb0.inode_bitmap_start sb0.inode_bitmap_blocks
  let bbm3 := bitmap_set_many bbm2 sb0.inode_table_start sb0.inode_table_blocks
  let bbm4 := (bitmap_set bbm3 SUPERBLOCK_BLOCK_NUM).2
  let ibm1 := (bitmap_set ibm0 INVALID_INODE_NUM).2
  -- cleanup_inode path: free the root inode and restore the counters
  let cleanup_inode := fun (st : Int) (d : disk_t) (sb : superblock)
      (ibm bbm : bitmap) (root_inode_num : Nat) =>
    match inode_free d ibm bbm root_inode_num with
    | .error _ =>
      let sb2 := { sb with free_inodes := inc32 sb.free_inodes }
      (st, writeIgnore d (superblock_write d sb2))
    | .ok (dF, _, _, freed) =>
      let sb2 := { sb with
                   free_inodes := inc32 sb.free_inodes
                   free_blocks := (sb.free_blocks + freed) % U32 }
      (st, writeIgnore dF (superblock_write dF sb2))
  match inode_alloc d1 ibm1 INODE_TYPE_DIRECTORY 0o755 now with
  | .error e => (e, d1)
  | .ok (d2, ibm2, root_inode, root_inode_num) =>
  let sb1 := { sb0 with free_inodes := dec32 sb0.free_inodes }
  if root_inode_num ≠ ROOT_INODE_NUM then
    cleanup_inode ERROR_GENERIC d2 sb1 ibm2 bbm4 root_inode_num
  else
  match dentry_create CURRENT_DIR root_inode_num INODE_TYPE_DIRECTORY with
  | .error _ => cleanup_inode ERROR_INVALID d2 sb1 ibm2 bbm4 root_inode_num
  | .ok dot_dentry =>
  match dentry_create PARENT_DIR root_inode_num INODE_TYPE_DIRECTORY with
  | .error _ => cleanup_inode ERROR_INVALID d2 sb1 ibm2 bbm4 root_inode_num
  | .ok dotdot_dentry =>
  match dentry_add d2 root_inode_num dot_dentry bbm4 now with
  | .error e => cleanup_inode e d2 sb1 ibm2 bbm4 root_inode_num
  | .ok (d3, bbm5) =>
  match dentry_add d3 root_inode_num dotdot_dentry bbm5 now with
  | .error e => cleanup_inode e d3 sb1 ibm2 bbm5 root_inode_num
  | .ok (d4, bbm6) =>
  -- the stale in-memory root inode (with zero pointers) is written back here
  match inode_write d4 root_inode_num { root_inode with links_count := 2 } with
  | .error e => cleanup_inode e d4 sb1 ibm2 bbm6 root_inode_num
  | .ok d5 =>
  match save_bitmaps ⟨d5, sb1, bbm6, ibm2, false, 0⟩ with
  | .error e => cleanup_inode e d5 sb1 ibm2 bbm6 root_inode_num
  | .ok fsT =>
  match superblock_write fsT.disk sb1 with
  | .error e => cleanup_inode e fsT.disk sb1 ibm2 bbm6 root_inode_num
  | .ok d6 => (SUCCESS, d6)

/-- `fs_mount` (fs.c). -/
def fs_mount (d : disk_t) (now : Nat) : Except Int filesystem_t := do
  let sb ← match superblock_read d with
           | .error _ => .error ERROR_IO
           | .ok sb => pure sb
  if ¬ superblock_is_valid sb then .error ERROR_INVALID
  else do
    let (bbm, ibm) ← match load_bitmaps d sb with
                     | .error _ => .error ERROR_IO
                     | .ok r => pure r
    let sb2 := { sb with last_mount_time := now, mount_count := inc32 sb.mount_count }
    match superblock_write d sb2 with
    | .error _ => .error ERROR_IO
    | .ok d2 => pure ⟨d2, sb2, bbm, ibm, true, ROOT_INODE_NUM⟩

/-- The component walk of `fs_path_to_inode`: `.` skipped, `..` resolved by
the literal `".."` dentry (the root's missing `..` resolves to the root),
everything else by `dentry_find`. -/
def fs_walk (fs : filesystem_t) : Nat → List Str → Except Int Nat
  | cur, [] => .ok cur
  | cur, comp :: rest =>
    if comp = CURRENT_DIR then fs_walk fs cur rest
    else if comp = PARENT_DIR then
      match dentry_find fs.disk cur PARENT_DIR with
      | .ok (e, _) => fs_walk fs e.inode_num rest
      | .error _ =>
        if cur ≠ ROOT_INODE_NUM then .error ERROR_NOT_FOUND
        else fs_walk fs cur rest
    else
      match dentry_find fs.disk cur comp with
      | .ok (e, _) => fs_walk fs e.inode_num rest
      | .error _ => .error ERROR_NOT_FOUND

/-- `fs_path_to_inode` (fs.c): validate, normalize, root shortcut, then walk
from the root (absolute) or the current directory (relative). -/
def fs_path_to_inode (fs : filesystem_t) (path : Str) : Except Int Nat :=
  if ¬ path_is_valid path then .error ERROR_INVALID
  else match path_normalize path with
    | none => .error ERROR_INVALID
    | some normalized =>
      if path_is_root normalized then .ok ROOT_INODE_NUM
      else match path_parse normalized with
        | none => .error ERROR_INVALID
        | some pc =>
          fs_walk fs (if pc.is_absolute then ROOT_INODE_NUM else fs.current_dir_inode)
            pc.components

/-- `fs_prepare_create` (fs.c): normalize, split, validate the new name,
resolve and validate the parent, check the name is absent. -/
def fs_prepare_create (fs : filesystem_t) (path : Str) :
    Except Int (Str × Str × Nat) :=
  if ¬ path_is_valid path then .error ERROR_INVALID
  else match path_normalize path with
    | none => .error ERROR_INVALID
    | some normalized =>
      match path_split normalized with
      | .error _ => .error ERROR_INVALID
      | .ok (parent_path, name) =>
        if ¬ filename_is_valid name then .error ERROR_INVALID
        else match fs_path_to_inode fs parent_path with
          | .error e => .error e
          | .ok parent_inode_num =>
            if validate_parent_directory fs.disk parent_inode_num ≠ SUCCESS then
              .error ERROR_INVALID
            else match dentry_find fs.disk parent_inode_num name with
              | .ok _ => .error ERROR_EXISTS
              | .error e =>
                if e ≠ ERROR_NOT_FOUND then .error e
                else .ok (parent_path, name, parent_inode_num)

/-- `fs_create` (fs.c): allocate a FILE inode, build and add the dentry,
persist the inode, save the bitmaps, debit `free_inodes`, persist the
superblock; on failure remove the partial dentry and free the inode. -/
def fs_create (fs : filesystem_t) (path : Str) (permissions : Nat) (now : Nat) :
    Int × filesystem_t :=
  match fs_prepare_create fs path with
  | .error e => (e, fs)
  | .ok (_, filename, parent_inode_num) =>
  match inode_alloc fs.disk fs.inode_bitmap INODE_TYPE_FILE permissions now with
  | .error _ => ( ERROR_NO_SPACE, fs)
  | .ok (d1, ibm1, new_inode, new_inode_num) =>
  let fs1 := { fs with disk := d1, inode_bitmap := ibm1 }
  -- cleanup_inode path (inode_free result ignored, as in the C code)
  let cleanup_inode := fun (st : Int) (fsc : filesystem_t) =>
    match inode_free fsc.disk fsc.inode_bitmap fsc.block_bitmap new_inode_num with
    | .error _ => (st, fsc)
    | .ok (dF, ibmF, bbmF, _) =>
      (st, { fsc with disk := dF, inode_bitmap := ibmF, block_bitmap := bbmF })
  match dentry_create filename new_inode_num INODE_TYPE_FILE with
  | .error _ => cleanup_inode ERROR_INVALID fs1
  | .ok new_dentry =>
  match dentry_add fs1.disk parent_inode_num new_dentry fs1.block_bitmap now with
  | .error _ => cleanup_inode ERROR_IO fs1
  | .ok (d2, bbm2) =>
  let fs2 := { fs1 with disk := d2, block_bitmap := bbm2 }
  let ino2 := { new_inode with modified_time := now, accessed_time := now }
  match inode_write fs2.disk new_inode_num ino2 with
  | .error _ =>
    let fsR := { fs2 with
      disk := writeIgnore fs2.disk (dentry_remove fs2.disk parent_inode_num filename now) }
    cleanup_inode ERROR_IO fsR
  | .ok d3 =>
  let fs3 := { fs2 with disk := d3 }
  let fs4 := writeIgnore fs3 (save_bitmaps fs3)
  let fs5 := { fs4 with sb := { fs4.sb with free_inodes := dec32 fs4.sb.free_inodes } }
  let fs6 := { fs5 with disk := writeIgnore fs5.disk (superblock_write fs5.disk fs5.sb) }
  (SUCCESS, fs6)

/-- The direct-block freeing loop of `fs_unlink`, `fs_rmdir` and `fs_open`'s
truncation: clears bitmap bits and credits `free_blocks`, stopping at the
first zero pointer. -/
def free_direct_blocks (bbm : bitmap) (free_blocks : Nat) (ptrs : List Nat) :
    bitmap × Nat :=
  (ptrs.takeWhile (· ≠ 0)).foldl
    (fun acc p => ((bitmap_clear acc.1 p).2, inc32 acc.2)) (bbm, free_blocks)

/-- The indirect freeing step shared by `fs_unlink` and `fs_open`'s
truncation: frees every pointer up to the first zero one, then the indirect
block itself. -/
def free_indirect_blocks (d : disk_t) (bbm : bitmap) (free_blocks : Nat)
    (indirect : Nat) : Except Int (bitmap × Nat) :=
  if indirect = 0 then .ok (bbm, free_blocks)
  else match disk_read_block d indirect with
    | .error _ => .error ERROR_IO
    | .ok blk =>
      let (bbm2, fb2) := free_direct_blocks bbm free_blocks
        (blk.asPtrs.take (BLOCK_SIZE / 4))
      .ok ((bitmap_clear bbm2 indirect).2, inc32 fb2)

/-- `fs_unlink` (fs.c): resolve, reject directories, decrement the link
count; at zero free all blocks and the inode (the return value of the
`inode_free` call at fs.c:977 is ignored, so on its failure the function
continues with the pre-call disk and bitmaps and `freed_blocks = 0`; a
failed read of the indirect block aborts with ` ERROR_IO` but keeps the
bitmap mutations of the direct loop); remove the dentry from the parent;
persist bitmaps and superblock. -/
def fs_unlink (fs : filesystem_t) (path : Str) (now : Nat) : Int × filesystem_t :=
  if ¬ path_is_valid path then ( ERROR_INVALID, fs)
  else match fs_path_to_inode fs path with
  | .error e => (e, fs)
  | .ok inode_num =>
  match inode_read fs.disk inode_num with
  | .error _ => ( ERROR_IO, fs)
  | .ok ino =>
  if ino.type = INODE_TYPE_DIRECTORY then ( ERROR_INVALID, fs)
  else
  let ino2 := { ino with links_count := dec16 ino.links_count }
  match (if ino2.links_count = 0 then
           let (bbmA, fbA) := free_direct_blocks fs.block_bitmap fs.sb.free_blocks
             (ino.direct.take 12)
           match free_indirect_blocks fs.disk bbmA fbA ino.indirect with
           | .error e => .error (e, { fs with
               block_bitmap := bbmA
               sb := { fs.sb with free_blocks := fbA } })
           | .ok (bbmB, fbB) =>
             let r := writeIgnore (fs.disk, fs.inode_bitmap, bbmB, 0)
               (inode_free fs.disk fs.inode_bitmap bbmB inode_num)
             .ok { fs with
                   disk := r.1
                   inode_bitmap := r.2.1
                   block_bitmap := r.2.2.1
                   sb := { fs.sb with
                           free_inodes := inc32 fs.sb.free_inodes
                           free_blocks := (fbB + r.2.2.2) % U32 } }
         else
           match inode_write fs.disk inode_num ino2 with
           | .error _ => .error ( ERROR_IO, fs)
           | .ok d2 => .ok { fs with disk := d2 } :
         Except (Int × filesystem_t) filesystem_t) with
  | .error (e, fsE) => (e, fsE)
  | .ok fs1 =>
  match path_normalize path with
  | none => ( ERROR_INVALID, fs1)
  | some normalized =>
  match path_split normalized with
  | .error _ => ( ERROR_INVALID, fs1)
  | .ok (parent_path, filename) =>
  match fs_path_to_inode fs1 parent_path with
  | .error e => (e, fs1)
  | .ok parent_inode_num =>
  match dentry_remove fs1.disk parent_inode_num filename now with
  | .error e => (e, fs1)
  | .ok d2 =>
  let fs2 := { fs1 with disk := d2 }
  match save_bitmaps fs2 with
  | .error _ => ( ERROR_IO, fs2)
  | .ok fs3 =>
  match superblock_write fs3.disk fs3.sb with
  | .error _ => ( ERROR_IO, fs3)
  | .ok d3 => (SUCCESS, { fs3 with disk := d3 })

/-- `fs_mkdir` (fs.c): allocate a DIRECTORY inode, add its dentry to the
parent, populate `.` and `..` through `dentry_add`, set `links_count = 2`,
increment the parent's link count, debit `free_inodes`, persist; layered
rollback on failure. -/
def fs_mkdir (fs : filesystem_t) (path : Str) (permissions : Nat) (now : Nat) :
    Int × filesystem_t :=
  match fs_prepare_create fs path with
  | .error e => (e, fs)
  | .ok (_, dirname, parent_inode_num) =>
  match inode_alloc fs.disk fs.inode_bitmap INODE_TYPE_DIRECTORY permissions now with
  | .error _ => ( ERROR_NO_SPACE, fs)
  | .ok (d1, ibm1, _, new_dir_inode_num) =>
  let fs1 := { fs with disk := d1, inode_bitmap := ibm1 }
  let cleanup_inode := fun (st : Int) (fsc : filesystem_t) =>
    match inode_free fsc.disk fsc.inode_bitmap fsc.block_bitmap new_dir_inode_num with
    | .error _ =>
      let sb2 := { fsc.sb with free_inodes := inc32 fsc.sb.free_inodes }
      let fsc2 := { fsc with sb := sb2 }
      let fsc3 := { fsc2 with
        disk := writeIgnore fsc2.disk (superblock_write fsc2.disk sb2) }
      (st, writeIgnore fsc3 (save_bitmaps fsc3))
    | .ok (dF, ibmF, bbmF, freed) =>
      let sb2 := { fsc.sb with
                   free_inodes := inc32 fsc.sb.free_inodes
                   free_blocks := (fsc.sb.free_blocks + freed) % U32 }
      let fsc2 := { fsc with
                    disk := dF
                    inode_bitmap := ibmF
                    block_bitmap := bbmF
                    sb := sb2 }
      let fsc3 := { fsc2 with
        disk := writeIgnore fsc2.disk (superblock_write fsc2.disk sb2) }
      (st, writeIgnore fsc3 (save_bitmaps fsc3))
  let cleanup_remove_parent_dentry := fun (st : Int) (fsc : filesystem_t) =>
    cleanup_inode st { fsc with
      disk := writeIgnore fsc.disk (dentry_remove fsc.disk parent_inode_num dirname now) }
  match dentry_create dirname new_dir_inode_num INODE_TYPE_DIRECTORY with
  | .error _ => cleanup_inode ERROR_INVALID fs1
  | .ok new_dentry =>
  match dentry_add fs1.disk parent_inode_num new_dentry fs1.block_bitmap now with
  | .error _ => cleanup_inode ERROR_IO fs1
  | .ok (d2, bbm2) =>
  let fs2 := { fs1 with disk := d2, block_bitmap := bbm2 }
  match dentry_create CURRENT_DIR new_dir_inode_num INODE_TYPE_DIRECTORY with
  | .error _ => cleanup_remove_parent_dentry ERROR_INVALID fs2
  | .ok dot =>
  match dentry_add fs2.disk new_dir_inode_num dot fs2.block_bitmap now with
  | .error _ => cleanup_remove_parent_dentry ERROR_IO fs2
  | .ok (d3, bbm3) =>
  let fs3 := { fs2 with disk := d3, block_bitmap := bbm3 }
  match dentry_create PARENT_DIR parent_inode_num INODE_TYPE_DIRECTORY with
  | .error _ => cleanup_remove_parent_dentry ERROR_INVALID fs3
  | .ok dotdot =>
  match dentry_add fs3.disk new_dir_inode_num dotdot fs3.block_bitmap now with
  | .error _ => cleanup_remove_parent_dentry ERROR_IO fs3
  | .ok (d4, bbm4) =>
  let fs4 := { fs3 with disk := d4, block_bitmap := bbm4 }
  match inode_read fs4.disk new_dir_inode_num with
  | .error _ => cleanup_remove_parent_dentry ERROR_IO fs4
  | .ok ndi =>
  match inode_write fs4.disk new_dir_inode_num
      { ndi with links_count := 2, modified_time := now } with
  | .error _ => cleanup_remove_parent_dentry ERROR_IO fs4
  | .ok d5 =>
  let fs5 := { fs4 with disk := d5 }
  match inode_read fs5.disk parent_inode_num with
  | .error _ => cleanup_remove_parent_dentry ERROR_IO fs5
  | .ok pino =>
  match inode_write fs5.disk parent_inode_num
      { pino with links_count := inc16 pino.links_count, modified_time := now } with
  | .error _ => cleanup_remove_parent_dentry ERROR_IO fs5
  | .ok d6 =>
  let fs6 := { fs5 with disk := d6 }
  let fs7 := { fs6 with sb := { fs6.sb with free_inodes := dec32 fs6.sb.free_inodes } }
  match superblock_write fs7.disk fs7.sb with
  | .error _ =>
    -- cleanup_revert_parent_link, then the layered cleanups
    let fsR :=
      match inode_read fs7.disk parent_inode_num with
      | .error _ => fs7
      | .ok p2 =>
        { fs7 with disk := writeIgnore fs7.disk (inode_write fs7.disk parent_inode_num
            { p2 with links_count := dec16 p2.links_count }) }
    cleanup_remove_parent_dentry ERROR_IO fsR
  | .ok d7 =>
  let fs8 := { fs7 with disk := d7 }
  (SUCCESS, writeIgnore fs8 (save_bitmaps fs8))

/-- `fs_rmdir` (fs.c): reject the root and non-directories; a directory with
any entry besides `.` and `..` is rejected with `ERROR_GENERIC`; otherwise
free the data blocks and the inode (the return value of the `inode_free`
call at fs.c:1212 is ignored, so on its failure the function continues with
the pre-call disk and bitmaps and `freed_blocks = 0`; the normalize/split
failure returns carry the block-bitmap mutations already made), remove the
parent dentry, decrement the parent's link count, persist. -/
def fs_rmdir (fs : filesystem_t) (path : Str) (now : Nat) : Int × filesystem_t :=
  if ¬ path_is_valid path then ( ERROR_INVALID, fs)
  else if path_is_root path then ( ERROR_INVALID, fs)
  else match fs_path_to_inode fs path with
  | .error e => (e, fs)
  | .ok target_inode_num =>
  match inode_read fs.disk target_inode_num with
  | .error _ => ( ERROR_IO, fs)
  | .ok target_inode =>
  if target_inode.type ≠ INODE_TYPE_DIRECTORY then ( ERROR_INVALID, fs)
  else match dentry_list fs.disk target_inode_num with
  | .error _ => ( ERROR_IO, fs)
  | .ok entries =>
  let non_special := (entries.filter
    (fun e => decide (e.name ≠ CURRENT_DIR ∧ e.name ≠ PARENT_DIR))).length
  if non_special > 0 then ( ERROR_GENERIC, fs)
  else
  let (bbmA, fbA) := free_direct_blocks fs.block_bitmap fs.sb.free_blocks
    (target_inode.direct.take 12)
  -- rmdir's indirect loop frees every non-zero pointer (no early stop) and
  -- ignores a failed read of the indirect block
  let (bbmB, fbB) :=
    if target_inode.indirect ≠ 0 then
      match disk_read_block fs.disk target_inode.indirect with
      | .error _ => ((bitmap_clear bbmA target_inode.indirect).2, inc32 fbA)
      | .ok blk =>
        let (bbmX, fbX) := ((blk.asPtrs.take (BLOCK_SIZE / 4)).filter (· ≠ 0)).foldl
          (fun acc p => ((bitmap_clear acc.1 p).2, inc32 acc.2)) (bbmA, fbA)
        ((bitmap_clear bbmX target_inode.indirect).2, inc32 fbX)
    else (bbmA, fbA)
  let fs0 := { fs with
               block_bitmap := bbmB
               sb := { fs.sb with free_blocks := fbB } }
  match path_normalize path with
  | none => ( ERROR_INVALID, fs0)
  | some normalized =>
  match path_split normalized with
  | .error _ => ( ERROR_INVALID, fs0)
  | .ok (parent_path, dirname) =>
  let r := writeIgnore (fs0.disk, fs0.inode_bitmap, fs0.block_bitmap, 0)
    (inode_free fs0.disk fs0.inode_bitmap fs0.block_bitmap target_inode_num)
  let fs1 := { fs0 with
               disk := r.1
               inode_bitmap := r.2.1
               block_bitmap := r.2.2.1
               sb := { fs0.sb with
                       free_inodes := inc32 fs0.sb.free_inodes
                       free_blocks := (fbB + r.2.2.2) % U32 } }
  match fs_path_to_inode fs1 parent_path with
  | .error e => (e, fs1)
  | .ok parent_inode_num =>
  let fs2 := { fs1 with
    disk := writeIgnore fs1.disk (dentry_remove fs1.disk parent_inode_num dirname now) }
  match inode_read fs2.disk parent_inode_num with
  | .error _ => ( ERROR_IO, fs2)
  | .ok pino =>
  match inode_write fs2.disk parent_inode_num
      { pino with links_count := dec16 pino.links_count, modified_time := now } with
  | .error _ => ( ERROR_IO, fs2)
  | .ok d3 =>
  let fs3 := { fs2 with disk := d3 }
  let fs4 := writeIgnore fs3 (save_bitmaps fs3)
  (SUCCESS, { fs4 with
    disk := writeIgnore fs4.disk (superblock_write fs4.disk fs4.sb) })

/-- `fs_open` (fs.c): resolve (creating on `O_CREAT`), require a FILE,
truncate on `O_TRUNC` (the freeing loop at fs.c:744-748 walks the direct
pointers up to the first zero entry, clearing their bitmap bits and zeroing
exactly those slots — entries after the first zero survive — then frees the
indirect chain; error returns inside the truncation keep the bitmap
mutations already made), offset at size for `O_APPEND`. -/
def fs_open (fs : filesystem_t) (path : Str) (flags : Nat) (now : Nat) :
    Int × filesystem_t × Option open_file_t :=
  if ¬ path_is_valid path then ( ERROR_INVALID, fs, none)
  else
  match (match fs_path_to_inode fs path with
         | .error e =>
           if e = ERROR_NOT_FOUND ∧ flags &&& FS_O_CREAT ≠ 0 then
             match fs_create fs path 0o644 now with
             | (code, fs2) =>
               if code ≠ SUCCESS then .error (code, fs2)
               else match fs_path_to_inode fs2 path with
                 | .error e2 => .error (e2, fs2)
                 | .ok n => .ok (n, fs2)
           else .error (e, fs)
         | .ok n => .ok (n, fs) :
         Except (Int × filesystem_t) (Nat × filesystem_t)) with
  | .error (e, fs1) => (e, fs1, none)
  | .ok (inode_num, fs1) =>
  match inode_read fs1.disk inode_num with
  | .error _ => ( ERROR_IO, fs1, none)
  | .ok ino =>
  if ino.type ≠ INODE_TYPE_FILE then ( ERROR_INVALID, fs1, none)
  else
  match (if flags &&& FS_O_TRUNC ≠ 0 then
           let k := ((ino.direct.take 12).takeWhile (· ≠ 0)).length
           let (bbmA, fbA) := free_direct_blocks fs1.block_bitmap fs1.sb.free_blocks
             (ino.direct.take 12)
           match free_indirect_blocks fs1.disk bbmA fbA ino.indirect with
           | .error e => .error (e, { fs1 with
               block_bitmap := bbmA
               sb := { fs1.sb with free_blocks := fbA } })
           | .ok (bbmB, fbB) =>
             let ino2 := { ino with
                           direct := List.replicate k 0 ++ ino.direct.drop k
                           indirect := 0
                           size := 0
                           blocks_used := 0
                           modified_time := now }
             match inode_write fs1.disk inode_num ino2 with
             | .error _ => .error ( ERROR_IO, { fs1 with
                 block_bitmap := bbmB
                 sb := { fs1.sb with free_blocks := fbB } })
             | .ok d2 =>
               let fsA := { fs1 with
                            disk := d2
                            block_bitmap := bbmB
                            sb := { fs1.sb with free_blocks := fbB } }
               let fsB := writeIgnore fsA (save_bitmaps fsA)
               .ok ({ fsB with
                      disk := writeIgnore fsB.disk (superblock_write fsB.disk fsB.sb) },
                    ino2)
         else .ok (fs1, ino) :
         Except (Int × filesystem_t) (filesystem_t × inode)) with
  | .error (e, fsE) => (e, fsE, none)
  | .ok (fs2, inoF) =>
  (SUCCESS, fs2, some
    { inode_num := inode_num, inode := inoF, flags := flags,
      offset := if flags &&& FS_O_APPEND ≠ 0 then inoF.size else 0 })

/-- `fs_read` (fs.c): requires the RDONLY-or-RDWR mask, delegates to
`read_inode_data`, advances the offset, refreshes the access time (the
`inode_write` result is ignored). -/
def fs_read (fs : filesystem_t) (f : open_file_t) (size : Nat) (now : Nat) :
    Int × filesystem_t × open_file_t × List Nat :=
  if f.flags &&& (FS_O_RDONLY ||| FS_O_RDWR) = 0 then ( ERROR_PERMISSION, fs, f, [])
  else match read_inode_data fs.disk f.inode f.offset size with
    | .error e => (e, fs, f, [])
    | .ok (bytes, n) =>
      let f2 := { f with
                  offset := (f.offset + n) % U32
                  inode := { f.inode with accessed_time := now } }
      let d2 := writeIgnore fs.disk (inode_write fs.disk f.inode_num f2.inode)
      (SUCCESS, { fs with disk := d2 }, f2, bytes)

/-- `fs_write` (fs.c): requires the WRONLY-or-RDWR mask, delegates to
`write_inode_data`, advances the offset, then saves bitmaps and superblock
(both results ignored). -/
def fs_write (fs : filesystem_t) (f : open_file_t) (buf : List Nat) (now : Nat) :
    Int × filesystem_t × open_file_t × Nat :=
  if f.flags &&& (FS_O_WRONLY ||| FS_O_RDWR) = 0 then ( ERROR_PERMISSION, fs, f, 0)
  else match write_inode_data fs.disk fs.block_bitmap f.inode f.inode_num
      f.offset buf now with
    | .error e => (e, fs, f, 0)
    | .ok (d2, bbm2, ino2, written) =>
      let f2 := { f with inode := ino2, offset := (f.offset + written) % U32 }
      let fs1 := { fs with disk := d2, block_bitmap := bbm2 }
      let fs2 := writeIgnore fs1 (save_bitmaps fs1)
      let fs3 := { fs2 with
        disk := writeIgnore fs2.disk (superblock_write fs2.disk fs2.sb) }
      (SUCCESS, fs3, f2, written)

/-- `fs_seek` (fs.c): clamps the offset to `[0, inode.size]`. -/
def fs_seek (f : open_file_t) (offset : Nat) : Int × open_file_t :=
  let off := if offset > f.inode.size then f.inode.size else offset
  (SUCCESS, { f with offset := off })

/-- `fs_stat` (fs.c). -/
def fs_stat (fs : filesystem_t) (path : Str) : Except Int inode :=
  if ¬ path_is_valid path then .error ERROR_INVALID
  else match fs_path_to_inode fs path with
    | .error e => .error e
    | .ok inode_num => inode_read fs.disk inode_num

-- ===================================================================
-- Concrete states used by the closed theorems below
-- ===================================================================

/-- A freshly attached, zero-filled backing image of `n` 512-byte blocks. -/
def freshDisk (n : Nat) : disk_t := ⟨n, fun _ => .zero⟩

/-- The superblock of the small 8-block / 4-inode demonstration filesystem
(layout exactly as `superblock_init` computes it for these counts). -/
def sbDemo : superblock :=
  { magic_number := MAGIC_NUMBER, total_blocks := 8, total_inodes := 4
    free_blocks := 4, free_inodes := 1, block_size := BLOCK_SIZE
    inode_size := INODE_SIZE, block_bitmap_start := 1, block_bitmap_blocks := 1
    inode_bitmap_start := 2, inode_bitmap_blocks := 1, inode_table_start := 3
    inode_table_blocks := 1, first_data_block := 4, created_time := 0
    last_mount_time := 0, mount_count := 1 }

/-- The root directory inode of the demonstration states (no data blocks). -/
def rootInoDemo : inode :=
  { type := INODE_TYPE_DIRECTORY, size := 0, blocks_used := 0
    direct := List.replicate 12 0, indirect := 0, created_time := 0
    modified_time := 0, accessed_time := 0, permissions := 0o755, links_count := 2 }

/-- An empty regular file inode (inode 2 of the demonstration states). -/
def fileInoDemo : inode :=
  { type := INODE_TYPE_FILE, size := 0, blocks_used := 0
    direct := List.replicate 12 0, indirect := 0, created_time := 0
    modified_time := 0, accessed_time := 0, permissions := 0o644, links_count := 1 }

/-- A small mounted filesystem: 8 blocks, 4 inodes, the root directory at
inode 1 and one empty regular file at inode 2; its bitmap accounting agrees
with the superblock counters (`free_blocks = 4` = free bits 4..7,
`free_inodes = 1` = free bit 3). -/
def fsDemo : filesystem_t :=
  { disk := ⟨8, fun n =>
      if n = 0 then .sb sbDemo
      else if n = 3 then .inodes [zero_inode, rootInoDemo, fileInoDemo, zero_inode]
      else .zero⟩
    sb := sbDemo
    block_bitmap := ⟨[true, true, true, true, false, false, false, false]⟩
    inode_bitmap := ⟨[true, true, true, false]⟩
    is_mounted := true
    current_dir_inode := ROOT_INODE_NUM }

/-- An open-file handle on `fsDemo`'s file inode 2 with caller-chosen flags. -/
def fhDemo (flags : Nat) : open_file_t :=
  { inode_num := 2, inode := fileInoDemo, offset := 0, flags := flags }

/-- A directory inode whose single data block is block `b`. -/
def dirIno1 (b : Nat) (links : Nat) : inode :=
  { type := INODE_TYPE_DIRECTORY, size := 0, blocks_used := 1
    direct := b :: List.replicate 11 0, indirect := 0, created_time := 0
    modified_time := 0, accessed_time := 0, permissions := 0o755, links_count := links }

/-- A directory inode whose data blocks are `b1` and `b2`. -/
def dirIno2 (b1 b2 : Nat) (links : Nat) : inode :=
  { type := INODE_TYPE_DIRECTORY, size := 0, blocks_used := 2
    direct := b1 :: b2 :: List.replicate 10 0, indirect := 0, created_time := 0
    modified_time := 0, accessed_time := 0, permissions := 0o755, links_count := links }

/-- A dentry with a consistent `name_len`. -/
def mkDentry (name : Str) (n : Nat) (ty : Nat) : dentry :=
  { inode_num := n, name_len := name.length, file_type := ty, name := name }

/-- The superblock of the 12-block rmdir demonstration filesystem. -/
def sbC5 : superblock :=
  { sbDemo with total_blocks := 12, free_blocks := 4, free_inodes := 0 }

/-- A mounted filesystem whose root (inode 1) contains a directory `d`
(inode 2) which in turn contains `.`, `..` and a file `f` (inode 3) — a
non-empty directory, ready for `fs_rmdir`. -/
def fsC5 : filesystem_t :=
  { disk := ⟨12, fun n =>
      if n = 0 then .sb sbC5
      else if n = 3 then .inodes [zero_inode, dirIno2 4 6 3, dirIno2 5 7 2, fileInoDemo]
      else if n = 4 then .dirents [mkDentry CURRENT_DIR 1 INODE_TYPE_DIRECTORY,
                                   mkDentry PARENT_DIR 1 INODE_TYPE_DIRECTORY]
      else if n = 5 then .dirents [mkDentry CURRENT_DIR 2 INODE_TYPE_DIRECTORY,
                                   mkDentry PARENT_DIR 1 INODE_TYPE_DIRECTORY]
      else if n = 6 then .dirents [mkDentry ['d'] 2 INODE_TYPE_DIRECTORY, zero_dentry]
      else if n = 7 then .dirents [mkDentry ['f'] 3 INODE_TYPE_FILE, zero_dentry]
      else .zero⟩
    sb := sbC5
    block_bitmap := ⟨[true, true, true, true, true, true, true, true,
                      false, false, false, false]⟩
    inode_bitmap := ⟨[true, true, true, true]⟩
    is_mounted := true
    current_dir_inode := ROOT_INODE_NUM }

-- ===================================================================
-- THEOREMS — path module
-- ===================================================================

theorem takeWhile_sepfree {x : Str} (h : PATH_SEPARATOR ∉ x) :
    x.takeWhile (· ≠ PATH_SEPARATOR) = x := by
  simp
  exact fun a ha hh => h (hh ▸ ha)

theorem dropWhile_sepfree {x : Str} (h : PATH_SEPARATOR ∉ x) :
    x.dropWhile (· ≠ PATH_SEPARATOR) = [] := by
  simp
  exact fun a ha hh => h (hh ▸ ha)

theorem takeWhile_sepfree_append {x : Str} (r : Str) (h : PATH_SEPARATOR ∉ x) :
    ((x ++ PATH_SEPARATOR :: r).takeWhile (· ≠ PATH_SEPARATOR) = x) := by
  rw [List.takeWhile_append]
  simp [takeWhile_sepfree h, dropWhile_sepfree h]
  exact fun _ a ha hh => h (hh ▸ ha)

theorem dropWhile_sepfree_append {x : Str} (r : Str) (h : PATH_SEPARATOR ∉ x) :
    ((x ++ PATH_SEPARATOR :: r).dropWhile (· ≠ PATH_SEPARATOR) = PATH_SEPARATOR :: r) := by
  rw [List.dropWhile_append]
  simp [takeWhile_sepfree h, dropWhile_sepfree h]
  exact fun _ a ha hh => h (hh ▸ ha)

theorem splitComps_sepfree {x : Str} (hne : x ≠ []) (hsep : PATH_SEPARATOR ∉ x) :
    splitComps x = [x] := by
  obtain ⟨c, x', rfl⟩ := List.exists_cons_of_ne_nil hne
  have hc : c ≠ PATH_SEPARATOR := fun hh => hsep (hh ▸ List.mem_cons_self c x')
  have hx' : PATH_SEPARATOR ∉ x' := fun hm => hsep (List.mem_cons_of_mem c hm)
  rw [splitComps]
  simp only [hc, if_false, takeWhile_sepfree hx', dropWhile_sepfree hx']
  rw [splitComps]

theorem splitComps_append_sep {x : Str} (r : Str) (hne : x ≠ []) (hsep : PATH_SEPARATOR ∉ x) :
    splitComps (x ++ PATH_SEPARATOR :: r) = x :: splitComps r := by
  obtain ⟨c, x', rfl⟩ := List.exists_cons_of_ne_nil hne
  have hc : c ≠ PATH_SEPARATOR := fun hh => hsep (hh ▸ List.mem_cons_self c x')
  have hx' : PATH_SEPARATOR ∉ x' := fun hm => hsep (List.mem_cons_of_mem c hm)
  rw [List.cons_append]
  rw [splitComps]
  simp only [hc, if_false, takeWhile_sepfree_append r hx', dropWhile_sepfree_append r hx']
  rw [splitComps]
  simp

theorem splitComps_mem : ∀ (s : Str), ∀ t ∈ splitComps s, t ≠ [] ∧ PATH_SEPARATOR ∉ t := by
  intro s
  induction s using splitComps.induct with
  | case1 => intro t ht; simp [splitComps] at ht
  | case2 rest ih =>
    intro t ht
    rw [splitComps] at ht
    simp only [if_pos rfl] at ht
    exact ih t ht
  | case3 c rest hc ih =>
    intro t ht
    rw [splitComps] at ht
    simp only [hc, if_false] at ht
    rcases List.mem_cons.mp ht with h | h
    · subst h
      refine ⟨by simp, ?_⟩
      intro hmem
      rcases List.mem_cons.mp hmem with h | h
      · exact hc h.symm
      · exact absurd (List.mem_takeWhile_imp h) (by simp)
    · exact ih t h

theorem joinComps_ne_nil {x : Str} (xs : List Str) (hx : x ≠ []) :
    joinComps (x :: xs) ≠ [] := by
  cases xs with
  | nil => simpa [joinComps] using hx
  | cons y ys => simp [joinComps, hx]

theorem joinComps_head? {x : Str} (xs : List Str) (hx : x ≠ []) :
    (joinComps (x :: xs)).head? = x.head? := by
  cases xs with
  | nil => rfl
  | cons y ys =>
    show (x ++ PATH_SEPARATOR :: joinComps (y :: ys)).head? = x.head?
    rw [List.head?_append_of_ne_nil _ hx]

theorem splitComps_joinComps : ∀ (cs : List Str), cs ≠ [] →
    (∀ x ∈ cs, x ≠ [] ∧ PATH_SEPARATOR ∉ x) → splitComps (joinComps cs) = cs
  | [], hne, _ => absurd rfl hne
  | [x], _, h => by
    have hx := h x (List.mem_cons_self x [])
    rw [show joinComps [x] = x from rfl]
    exact splitComps_sepfree hx.1 hx.2
  | x :: y :: ys, _, h => by
    have hx := h x (List.mem_cons_self x (y :: ys))
    have hrest : ∀ z ∈ y :: ys, z ≠ [] ∧ PATH_SEPARATOR ∉ z :=
      fun z hz => h z (List.mem_cons_of_mem x hz)
    show splitComps (x ++ PATH_SEPARATOR :: joinComps (y :: ys)) = x :: y :: ys
    rw [splitComps_append_sep _ hx.1 hx.2]
    rw [splitComps_joinComps (y :: ys) (by simp) hrest]

theorem getLast?_replicate_pd {m : Nat} (h : 0 < m) :
    (List.replicate m PARENT_DIR).getLast? = some PARENT_DIR := by
  cases m with
  | zero => omega
  | succ n => rw [List.replicate_succ']; exact List.getLast?_concat _

theorem normStep_push (abs : Bool) (st : List Str) {c : Str}
    (hd : c ≠ CURRENT_DIR) (hdd : c ≠ PARENT_DIR) :
    normStep abs st c = st ++ [c] := by
  simp [normStep, hd, hdd]

theorem foldl_normStep_clean (abs : Bool) :
    ∀ (rest : List Str) (st : List Str),
    (∀ x ∈ rest, x ≠ PARENT_DIR ∧ x ≠ CURRENT_DIR) →
    List.foldl (normStep abs) st rest = st ++ rest
  | [], st, _ => by simp
  | c :: rest, st, h => by
    have hc := h c (List.mem_cons_self c rest)
    rw [List.foldl_cons, normStep_push abs st hc.2 hc.1]
    rw [foldl_normStep_clean abs rest (st ++ [c]) (fun x hx => h x (List.mem_cons_of_mem c hx))]
    simp

theorem normStep_pd_rel (m : Nat) :
    normStep false (List.replicate m PARENT_DIR) PARENT_DIR
      = List.replicate (m + 1) PARENT_DIR := by
  have hne : PARENT_DIR ≠ CURRENT_DIR := by decide
  cases m with
  | zero => simp [normStep, hne]
  | succ n =>
    have hl := getLast?_replicate_pd (Nat.succ_pos n)
    simp [normStep, hne, hl, List.replicate_succ']

theorem foldl_normStep_pd_rel :
    ∀ (k m : Nat),
    List.foldl (normStep false) (List.replicate m PARENT_DIR) (List.replicate k PARENT_DIR)
      = List.replicate (m + k) PARENT_DIR
  | 0, m => by simp
  | k + 1, m => by
    rw [List.replicate_succ, List.foldl_cons, normStep_pd_rel m]
    rw [foldl_normStep_pd_rel k (m + 1)]
    congr 1
    omega

/-- A list satisfying the normal-shape invariant is a fixed point of the
normalization loop. -/
theorem normComps_fix {abs : Bool} {l : List Str} (h : isNormal abs l) :
    normComps abs l = l := by
  obtain ⟨k, rest, rfl, habs, hrest⟩ := h
  unfold normComps
  rw [List.foldl_append]
  cases abs with
  | true =>
    rw [habs rfl]
    simpa using foldl_normStep_clean true rest [] hrest
  | false =>
    have h1 : List.foldl (normStep false) [] (List.replicate k PARENT_DIR)
        = List.replicate k PARENT_DIR := by
      have := foldl_normStep_pd_rel k 0
      simpa using this
    rw [h1, foldl_normStep_clean false rest _ hrest]

/-- Every state of the normalization loop keeps the normal-shape invariant. -/
theorem normStep_isNormal {abs : Bool} {st : List Str} (c : Str)
    (h : isNormal abs st) : isNormal abs (normStep abs st c) := by
  obtain ⟨k, rest, rfl, habs, hrest⟩ := h
  by_cases hd : c = CURRENT_DIR
  · rw [normStep, if_pos hd]; exact ⟨k, rest, rfl, habs, hrest⟩
  by_cases hdd : c = PARENT_DIR
  · rw [normStep, if_neg hd, if_pos hdd]
    by_cases hpop : (List.replicate k PARENT_DIR ++ rest) ≠ [] ∧
        (List.replicate k PARENT_DIR ++ rest).getLast? ≠ some PARENT_DIR
    · rw [if_pos hpop]
      -- the top is a real component, so `rest` is non-empty and we pop it
      have hrne : rest ≠ [] := by
        intro hcon
        subst hcon
        rcases Nat.eq_zero_or_pos k with hk | hk
        · subst hk; exact hpop.1 (by simp)
        · exact hpop.2 (by simpa using getLast?_replicate_pd hk)
      rw [List.dropLast_append_of_ne_nil _ hrne]
      exact ⟨k, rest.dropLast, rfl, habs,
        fun x hx => hrest x ((List.dropLast_prefix rest).subset hx)⟩
    · rw [if_neg hpop]
      -- cannot pop: the stack is empty or already ends in `..`
      have hshape : rest = [] := by
        by_contra hcon
        apply hpop
        constructor
        · simp [hcon]
        · rw [List.getLast?_append_of_ne_nil _ hcon]
          intro hsome
          have : PARENT_DIR ∈ rest := List.mem_of_mem_getLast? hsome
          exact (hrest _ this).1 rfl
      subst hshape
      cases abs with
      | true =>
        have hk0 := habs rfl
        subst hk0
        simp only [Bool.not_true, Bool.false_eq_true, if_false]
        exact ⟨0, [], by simp, fun _ => rfl, by simp⟩
      | false =>
        simp only [Bool.not_false, if_true]
        refine ⟨k + 1, [], ?_, by simp, by simp⟩
        simp [List.replicate_succ']
  · rw [normStep, if_neg hd, if_neg hdd]
    exact ⟨k, rest ++ [c], by simp, habs,
      fun x hx => by
        rcases List.mem_append.mp hx with h | h
        · exact hrest x h
        · simp at h; subst h; exact ⟨hdd, hd⟩⟩

theorem foldl_normStep_isNormal {abs : Bool} :
    ∀ (cs : List Str) (st : List Str), isNormal abs st →
    isNormal abs (List.foldl (normStep abs) st cs)
  | [], _, h => h
  | c :: cs, st, h =>
    foldl_normStep_isNormal cs (normStep abs st c) (normStep_isNormal c h)

theorem normComps_isNormal (abs : Bool) (cs : List Str) :
    isNormal abs (normComps abs cs) :=
  foldl_normStep_isNormal cs [] ⟨0, [], by simp, fun _ => rfl, by simp⟩

/-- The components produced by the normalization loop are non-empty and
separator-free whenever the input components are. -/
theorem foldl_normStep_mem {abs : Bool} (P : Str → Prop)
    (hPd : P PARENT_DIR) :
    ∀ (cs : List Str) (st : List Str), (∀ x ∈ st, P x) → (∀ x ∈ cs, P x) →
    ∀ x ∈ List.foldl (normStep abs) st cs, P x
  | [], st, hst, _, x, hx => hst x hx
  | c :: cs, st, hst, hcs, x, hx => by
    have hPc : P c := hcs c (List.mem_cons_self c cs)
    refine foldl_normStep_mem P hPd cs (normStep abs st c) ?_
      (fun y hy => hcs y (List.mem_cons_of_mem c hy)) x hx
    intro y hy
    unfold normStep at hy
    split at hy
    · exact hst y hy
    · split at hy
      · split at hy
        · exact hst y ((List.dropLast_prefix st).subset hy)
        · split at hy
          · rcases List.mem_append.mp hy with h | h
            · exact hst y h
            · simp at h; subst h; exact hPd
          · exact hst y hy
      · rcases List.mem_append.mp hy with h | h
        · exact hst y h
        · simp at h; subst h; exact hPc

theorem normComps_mem {abs : Bool} {cs : List Str}
    (h : ∀ x ∈ cs, x ≠ [] ∧ PATH_SEPARATOR ∉ x) :
    ∀ x ∈ normComps abs cs, x ≠ [] ∧ PATH_SEPARATOR ∉ x := by
  refine foldl_normStep_mem _ ?_ cs [] (by simp) h
  constructor
  · simp [PARENT_DIR]
  · simp [PARENT_DIR, PATH_SEPARATOR]

theorem path_normalize_cons (c : Char) (rest : Str) :
    path_normalize (c :: rest)
      = some (renderPath (decide (c = PATH_SEPARATOR))
          (normComps (decide (c = PATH_SEPARATOR)) (splitComps (c :: rest)))) := rfl

theorem splitComps_sep_cons (l : Str) : splitComps (PATH_SEPARATOR :: l) = splitComps l := by
  rw [splitComps]; simp

theorem renderPath_nil (abs : Bool) :
    renderPath abs [] = if abs then [PATH_SEPARATOR] else CURRENT_DIR := by
  cases abs <;> rfl

theorem renderPath_cons_true (x : Str) (xs : List Str) :
    renderPath true (x :: xs) = PATH_SEPARATOR :: joinComps (x :: xs) := by
  unfold renderPath; simp

theorem renderPath_cons_false (x : Str) (xs : List Str) (hx : x ≠ []) :
    renderPath false (x :: xs) = joinComps (x :: xs) := by
  unfold renderPath
  simp [joinComps_ne_nil xs hx]

theorem normComps_curdir : normComps false [CURRENT_DIR] = [] := by
  simp [normComps, normStep]

/-- Normalizing the rendering of a normal-shaped, clean component list gives
the same rendering back. -/
theorem path_normalize_render {abs : Bool} {l : List Str} (hn : isNormal abs l)
    (hclean : ∀ x ∈ l, x ≠ [] ∧ PATH_SEPARATOR ∉ x) :
    path_normalize (renderPath abs l) = some (renderPath abs l) := by
  cases l with
  | nil =>
    cases abs with
    | true =>
      rw [renderPath_nil, if_pos rfl]
      rw [show ([PATH_SEPARATOR] : Str) = PATH_SEPARATOR :: [] from rfl, path_normalize_cons]
      rw [splitComps_sep_cons, splitComps]
      simp [normComps, renderPath_nil]
    | false =>
      rw [renderPath_nil]
      simp only [Bool.false_eq_true, if_false]
      rw [show CURRENT_DIR = '.' :: [] from rfl, path_normalize_cons]
      have h1 : splitComps ('.' :: []) = [CURRENT_DIR] :=
        splitComps_sepfree (by simp) (by simp [PATH_SEPARATOR])
      rw [h1]
      have habs : decide (('.' : Char) = PATH_SEPARATOR) = false := by decide
      rw [habs]
      rw [normComps_curdir, renderPath_nil]
      rfl
  | cons x xs =>
    have hx := hclean x (List.mem_cons_self x xs)
    have hsplit : splitComps (joinComps (x :: xs)) = x :: xs :=
      splitComps_joinComps (x :: xs) (by simp) hclean
    have hfix : normComps abs (x :: xs) = x :: xs := normComps_fix hn
    cases abs with
    | true =>
      rw [renderPath_cons_true, path_normalize_cons]
      have : decide (PATH_SEPARATOR = PATH_SEPARATOR) = true := by decide
      rw [this, splitComps_sep_cons, hsplit, hfix, renderPath_cons_true]
    | false =>
      rw [renderPath_cons_false x xs hx.1]
      obtain ⟨d, x', rfl⟩ := List.exists_cons_of_ne_nil hx.1
      have hd : d ≠ PATH_SEPARATOR := fun hh => hx.2 (hh ▸ List.mem_cons_self d x')
      have hcons : ∃ t, joinComps ((d :: x') :: xs) = d :: t := by
        cases xs with
        | nil => exact ⟨x', rfl⟩
        | cons y ys => exact ⟨x' ++ PATH_SEPARATOR :: joinComps (y :: ys), by simp [joinComps]⟩
      obtain ⟨t, ht⟩ := hcons
      rw [ht, path_normalize_cons]
      have hdf : decide (d = PATH_SEPARATOR) = false := by simp [hd]
      rw [hdf, ← ht, hsplit, hfix, renderPath_cons_false _ _ hx.1, ht]

/-- `path_normalize` on a non-empty path succeeds and is idempotent. -/
theorem path_normalize_idem {p : Str} (h : p ≠ []) :
    ∃ q, path_normalize p = some q ∧ path_normalize q = some q := by
  obtain ⟨c, rest, rfl⟩ := List.exists_cons_of_ne_nil h
  refine ⟨_, path_normalize_cons c rest, ?_⟩
  exact path_normalize_render (normComps_isNormal _ _)
    (normComps_mem (fun x hx => splitComps_mem _ x hx))

theorem normStep_eq_specNormStep (abs : Bool) (st : List Str) (c : Str) :
    normStep abs st c = specNormStep abs st c := by
  have hpc : PARENT_DIR ≠ CURRENT_DIR := by decide
  unfold normStep specNormStep
  by_cases hd : c = CURRENT_DIR
  · simp [hd]
  by_cases hdd : c = PARENT_DIR
  · subst hdd
    simp only [hd, if_false, if_pos rfl, hpc]
    cases hl : st.getLast? with
    | none =>
      have hst : st = [] := List.getLast?_eq_none_iff.mp hl
      subst hst
      cases abs <;> simp
    | some prev =>
      have hne : st ≠ [] := by intro hcon; subst hcon; simp at hl
      by_cases hp : prev = PARENT_DIR
      · subst hp
        cases abs <;> simp
      · simp [hp, hne]
  · simp [hd, hdd]

/-- C6: `path_normalize` drops every `.` component and pops the previous
component for `..` when possible, with exactly two special cases — for
absolute paths a `..` with an empty component stack is silently discarded
(`normalize("/../home") = "/home"`), while for relative paths a `..` that
cannot pop is preserved literally (`normalize("../file") = "../file"`); the
output preserves `is_absolute`, and an empty component result renders as `/`
for absolute inputs and `.` for relative inputs.  Stated as a refinement:
the code's `path_normalize` coincides with `specNormalize`, a definition
written from the spec's words, together with the two example equations and
the absoluteness-preservation property. -/
theorem C6_path_normalize_contract :
    (∀ p : Str, path_normalize p = specNormalize p) ∧
    path_normalize (strOf ("/../home")) = some (strOf ("/home")) ∧
    path_normalize (strOf ("../file")) = some (strOf ("../file")) ∧
    (∀ p q : Str, path_normalize p = some q →
      (q.head? = some PATH_SEPARATOR ↔ p.head? = some PATH_SEPARATOR)) := by
  refine ⟨?_, ?_, ?_, ?_⟩
  · intro p
    cases p with
    | nil => rfl
    | cons c rest =>
      have hfun : normStep (decide (c = PATH_SEPARATOR))
          = specNormStep (decide (c = PATH_SEPARATOR)) :=
        funext fun st => funext fun comp => normStep_eq_specNormStep _ st comp
      rw [path_normalize_cons]
      show _ = (path_parse (c :: rest)).map _
      rw [show path_parse (c :: rest)
            = some ⟨decide (c = PATH_SEPARATOR), splitComps (c :: rest)⟩ from rfl]
      rw [Option.map_some']
      rw [normComps, hfun]
  · simp [strOf, path_normalize, path_parse, splitComps, normComps, normStep,
      renderPath, joinComps, CURRENT_DIR, PARENT_DIR, PATH_SEPARATOR]
  · simp [strOf, path_normalize, path_parse, splitComps, normComps, normStep,
      renderPath, joinComps, CURRENT_DIR, PARENT_DIR, PATH_SEPARATOR]
  · intro p q hq
    cases p with
    | nil => simp [path_normalize, path_parse] at hq
    | cons c rest =>
      rw [path_normalize_cons] at hq
      have hq' : q = renderPath (decide (c = PATH_SEPARATOR))
          (normComps (decide (c = PATH_SEPARATOR)) (splitComps (c :: rest))) :=
        (Option.some.injEq _ _ ▸ hq).symm
      subst hq'
      have hclean : ∀ x ∈ normComps (decide (c = PATH_SEPARATOR)) (splitComps (c :: rest)),
          x ≠ [] ∧ PATH_SEPARATOR ∉ x :=
        normComps_mem (fun x hx => splitComps_mem _ x hx)
      by_cases hc : c = PATH_SEPARATOR
      · subst hc
        have hT : (decide (PATH_SEPARATOR = PATH_SEPARATOR)) = true := by decide
        rw [hT] at hclean ⊢
        cases hcs : normComps true (splitComps (PATH_SEPARATOR :: rest)) with
        | nil => rw [renderPath_nil]; simp
        | cons x xs => rw [renderPath_cons_true]; simp
      · have hcf : decide (c = PATH_SEPARATOR) = false := by simp [hc]
        rw [hcf]
        rw [hcf] at hclean
        cases hcs : normComps false (splitComps (c :: rest)) with
        | nil =>
          rw [renderPath_nil]
          constructor
          · intro h; simp [CURRENT_DIR] at h; exact absurd h (by decide)
          · intro h; simp at h; exact absurd h hc
        | cons x xs =>
          rw [hcs] at hclean
          have hx := hclean x (List.mem_cons_self x xs)
          rw [renderPath_cons_false x xs hx.1]
          obtain ⟨d, x', rfl⟩ := List.exists_cons_of_ne_nil hx.1
          have hd : d ≠ PATH_SEPARATOR := fun hh => hx.2 (hh ▸ List.mem_cons_self d x')
          have hcons : ∃ t, joinComps ((d :: x') :: xs) = d :: t := by
            cases xs with
            | nil => exact ⟨x', rfl⟩
            | cons y ys =>
              exact ⟨x' ++ PATH_SEPARATOR :: joinComps (y :: ys), by simp [joinComps]⟩
          obtain ⟨t, ht⟩ := hcons
          rw [ht]
          simp [hd, hc]

/-- C7: for every non-empty valid path `p`, `path_normalize` is idempotent:
normalizing twice gives the same result as normalizing once. -/
theorem C7_path_normalize_idempotent {p : Str} (h : path_is_valid p = true) :
    ∃ q, path_normalize p = some q ∧ path_normalize q = some q := by
  have hne : p ≠ [] := by
    intro hcon; subst hcon; simp [path_is_valid] at h
  exact path_normalize_idem hne

/-- Witness for C7 at the concrete valid path `/a/./b/../c`. -/
theorem C7_witness :
    path_is_valid (strOf ("/a/./b/../c")) = true ∧
    ∃ q, path_normalize (strOf ("/a/./b/../c")) = some q ∧ path_normalize q = some q := by
  have hv : path_is_valid (strOf ("/a/./b/../c")) = true := by
    simp [strOf, path_is_valid, path_parse, splitComps, filename_is_valid,
      CURRENT_DIR, PARENT_DIR, PATH_SEPARATOR, MAX_PATH, MAX_FILENAME]
  exact ⟨hv, C7_path_normalize_idempotent hv⟩

-- ===================================================================
-- THEOREMS — error-code characterizations of the core operations
-- ===================================================================

theorem bind_ok {α β : Type} (a : α) (f : α → Except Int β) :
    (Except.ok a >>= f) = f a := rfl

theorem bind_error {α β : Type} (e : Int) (f : α → Except Int β) :
    ((Except.error e : Except Int α) >>= f) = Except.error e := rfl

theorem pure_eq_ok {α : Type} (a : α) : (pure a : Except Int α) = Except.ok a := rfl

theorem orIO_error {α : Type} {x : Except Int α} {e : Int}
    (h : orIO x = .error e) : e = ERROR_IO := by
  unfold orIO at h
  split at h <;> simp_all

theorem scan_dentry_block_error {d : disk_t} {b : Nat} {name : Str} {gi : Nat} {e : Int}
    (h : scan_dentry_block d b name gi = .error e) : e = ERROR_IO := by
  unfold scan_dentry_block at h
  split at h
  · simp at h
  · split at h <;> simp_all

theorem find_in_blocks_error {d : disk_t} {name : Str} :
    ∀ {gi : Nat} {bs : List Nat} {e : Int},
    find_in_blocks d name gi bs = .error e → e = ERROR_IO := by
  intro gi bs
  induction bs generalizing gi with
  | nil => intro e h; simp [find_in_blocks] at h
  | cons b rest ih =>
    intro e h
    unfold find_in_blocks at h
    cases hs : scan_dentry_block d b name gi with
    | error e2 =>
      rw [hs, bind_error] at h
      cases h
      exact scan_dentry_block_error hs
    | ok r =>
      rw [hs, bind_ok] at h
      obtain ⟨r1, r2⟩ := r
      cases r1 with
      | some x => simp [pure_eq_ok] at h
      | none => exact ih h

theorem dentry_find_error {d : disk_t} {n : Nat} {name : Str} {e : Int}
    (h : dentry_find d n name = .error e) :
    e = ERROR_IO ∨ e = ERROR_INVALID ∨ e = ERROR_NOT_FOUND := by
  unfold dentry_find at h
  cases hr : orIO (inode_read d n) with
  | error e2 =>
    rw [hr, bind_error] at h
    cases h
    exact Or.inl (orIO_error hr)
  | ok dir =>
    rw [hr, bind_ok] at h
    split at h
    · simp at h; simp [h]
    · cases hfb : find_in_blocks d name 0 ((dir.direct.take 12).takeWhile (· ≠ 0)) with
      | error e2 =>
        rw [hfb, bind_error] at h
        cases h
        exact Or.inl (find_in_blocks_error hfb)
      | ok r =>
        rw [hfb, bind_ok] at h
        obtain ⟨r1, gi⟩ := r
        cases r1 with
        | some x => simp [pure_eq_ok] at h
        | none =>
          simp only at h
          split at h
          · cases hib : orIO (disk_read_block d dir.indirect) with
            | error e3 =>
              rw [hib, bind_error] at h
              cases h
              exact Or.inl (orIO_error hib)
            | ok iblk =>
              rw [hib, bind_ok] at h
              cases hfb2 : find_in_blocks d name gi
                  ((iblk.asPtrs.take (BLOCK_SIZE / 4)).takeWhile (· ≠ 0)) with
              | error e4 =>
                rw [hfb2, bind_error] at h
                cases h
                exact Or.inl (find_in_blocks_error hfb2)
              | ok r2 =>
                rw [hfb2, bind_ok] at h
                obtain ⟨r21, gi2⟩ := r2
                cases r21 with
                | some x => simp [pure_eq_ok] at h
                | none => simp at h; simp [h]
          · simp at h; simp [h]

theorem fs_walk_error {fs : filesystem_t} :
    ∀ {cur : Nat} {comps : List Str} {e : Int},
    fs_walk fs cur comps = .error e → e = ERROR_NOT_FOUND := by
  intro cur comps
  induction comps generalizing cur with
  | nil => intro e h; simp [fs_walk] at h
  | cons comp rest ih =>
    intro e h
    unfold fs_walk at h
    split at h
    · exact ih h
    · split at h
      · split at h
        · exact ih h
        · split at h
          · simp at h; simp [h]
          · exact ih h
      · split at h
        · exact ih h
        · simp at h; simp [h]

theorem fs_path_to_inode_error {fs : filesystem_t} {path : Str} {e : Int}
    (h : fs_path_to_inode fs path = .error e) :
    e = ERROR_INVALID ∨ e = ERROR_NOT_FOUND := by
  unfold fs_path_to_inode at h
  split at h
  · simp at h; simp [h]
  · split at h
    · simp at h; simp [h]
    · split at h
      · simp at h
      · split at h
        · simp at h; simp [h]
        · exact Or.inr (fs_walk_error h)

theorem fs_prepare_create_error {fs : filesystem_t} {path : Str} {e : Int}
    (h : fs_prepare_create fs path = .error e) : e ≠ SUCCESS := by
  unfold fs_prepare_create at h
  split at h
  · simp at h; simp [← h]; decide
  · split at h
    · simp at h; simp [← h]; decide
    · split at h
      · simp at h; simp [← h]; decide
      · split at h
        · simp at h; simp [← h]; decide
        · split at h
          · rename_i e2 heq
            simp at h
            rcases fs_path_to_inode_error heq with h2 | h2 <;> simp [← h, h2] <;> decide
          · split at h
            · simp at h; simp [← h]; decide
            · split at h
              · simp at h; simp [← h]; decide
              · rename_i e2 heq
                split at h
                · simp at h
                  rcases dentry_find_error heq with h2 | h2 | h2 <;>
                    simp [← h, h2] <;> decide
                · simp at h

theorem superblock_init_error {d : disk_t} {tb ti now : Nat} {e : Int}
    (h : superblock_init d tb ti now = .error e) : e = ERROR_NO_SPACE := by
  simp only [superblock_init] at h
  split at h
  · simp_all
  · split at h <;> simp_all

theorem inode_alloc_error {d : disk_t} {bm : bitmap} {ty perms now : Nat} {e : Int}
    (h : inode_alloc d bm ty perms now = .error e) :
    e = ERROR_NO_SPACE ∨ e = ERROR_IO := by
  simp only [inode_alloc] at h
  split at h
  · simp_all
  · split at h <;> simp_all

theorem read_block_num_error {d : disk_t} {ino : inode} {idx : Nat} {e : Int}
    (h : read_block_num d ino idx = .error e) :
    e = ERROR_INVALID ∨ e = ERROR_IO := by
  unfold read_block_num at h
  split at h
  · simp at h
  · split at h
    · simp at h; simp [h]
    · split at h
      · simp at h; simp [h]
      · split at h
        · simp at h; simp [h]
        · simp at h

theorem read_loop_error :
    ∀ (remaining : Nat) {d : disk_t} {ino : inode} {idx intra : Nat}
      {h : intra < BLOCK_SIZE} {e : Int},
    read_loop d ino idx intra remaining h = .error e →
    e = ERROR_INVALID ∨ e = ERROR_IO := by
  intro remaining
  induction remaining using Nat.strong_induction_on with
  | _ remaining ih =>
    intro d ino idx intra h e herr
    rw [read_loop] at herr
    simp only [] at herr
    split at herr
    · simp at herr
    · rename_i hr0
      have hlt : remaining - min remaining (BLOCK_SIZE - intra) < remaining := by
        have h2 : 1 ≤ min remaining (BLOCK_SIZE - intra) := le_min (by omega) (by omega)
        have h3 := Nat.min_le_left remaining (BLOCK_SIZE - intra)
        omega
      repeat' split at herr
      all_goals
        first
        | (simp at herr; done)
        | (cases herr; simp; done)
        | (cases herr; apply read_block_num_error; assumption)
        | (cases herr; apply ih _ hlt; assumption)

theorem read_inode_data_error {d : disk_t} {ino : inode} {offset size : Nat} {e : Int}
    (h : read_inode_data d ino offset size = .error e) :
    e = ERROR_INVALID ∨ e = ERROR_IO := by
  unfold read_inode_data at h
  simp only [] at h
  repeat' split at h
  all_goals
    first
    | (simp at h; done)
    | (cases h; simp; done)
    | (cases h; apply read_loop_error; assumption)

theorem write_loop_error :
    ∀ (remaining : Nat) {d : disk_t} {bbm : bitmap} {ino : inode}
      {inode_num idx intra : Nat} {buf : List Nat} {modified : Bool}
      {h : intra < BLOCK_SIZE} {e : Int},
    write_loop d bbm ino inode_num idx intra buf remaining modified h = .error e →
    e = ERROR_NO_SPACE ∨ e = ERROR_IO := by
  intro remaining
  induction remaining using Nat.strong_induction_on with
  | _ remaining ih =>
    intro d bbm ino inode_num idx intra buf modified h e herr
    rw [write_loop] at herr
    simp only [] at herr
    split at herr
    · simp at herr
    · rename_i hr0
      have hlt : remaining - min remaining (BLOCK_SIZE - intra) < remaining := by
        have h2 : 1 ≤ min remaining (BLOCK_SIZE - intra) := le_min (by omega) (by omega)
        have h3 := Nat.min_le_left remaining (BLOCK_SIZE - intra)
        omega
      repeat' split at herr
      all_goals
        first
        | (simp at herr; done)
        | (cases herr; simp; done)
        | (apply ih _ hlt; exact herr)
        | (cases herr; apply ih _ hlt; assumption)
        | (cases herr
           rename_i heq2
           repeat' split at heq2
           all_goals
             first
             | (simp at heq2; done)
             | (cases heq2; simp; done))

theorem write_inode_data_error {d : disk_t} {bbm : bitmap} {ino : inode}
    {inode_num offset : Nat} {buf : List Nat} {now : Nat} {e : Int}
    (h : write_inode_data d bbm ino inode_num offset buf now = .error e) :
    e = ERROR_NO_SPACE ∨ e = ERROR_IO := by
  unfold write_inode_data at h
  simp only [] at h
  repeat' split at h
  all_goals
    first
    | (simp at h; done)
    | (cases h; simp; done)
    | (cases h; apply write_loop_error; assumption)

-- ===================================================================
-- THEOREMS — format / mkdir and the special entries (C1, C2)
-- ===================================================================

theorem dentry_create_dot (n ty : Nat) :
    dentry_create CURRENT_DIR n ty = .error ERROR_INVALID := rfl

theorem dentry_create_dotdot (n ty : Nat) :
    dentry_create PARENT_DIR n ty = .error ERROR_INVALID := rfl

theorem fs_format_no_success (d0 : disk_t) (tb ti now : Nat) :
    (fs_format d0 tb ti now).1 ≠ SUCCESS := by
  intro h
  simp only [fs_format] at h
  repeat' split at h
  all_goals
    first
    | (simp only [dentry_create_dot, reduceCtorEq] at *; done)
    | (simp [SUCCESS, ERROR_GENERIC, ERROR_IO, ERROR_INVALID, ERROR_NO_SPACE] at h
       done)
    | (rename_i heq
       have h2 := superblock_init_error heq
       simp_all [SUCCESS, ERROR_NO_SPACE, ERROR_IO])
    | (rename_i heq
       have h2 := inode_alloc_error heq
       rcases h2 with h2 | h2 <;> simp_all [SUCCESS, ERROR_NO_SPACE, ERROR_IO])

theorem fs_mkdir_no_success (fs : filesystem_t) (path : Str)
    (perms now : Nat) : (fs_mkdir fs path perms now).1 ≠ SUCCESS := by
  intro h
  simp only [fs_mkdir] at h
  repeat' split at h
  all_goals
    first
    | (simp only [dentry_create_dot, reduceCtorEq] at *; done)
    | (simp [SUCCESS, ERROR_GENERIC, ERROR_IO, ERROR_INVALID, ERROR_NO_SPACE] at h
       done)
    | (rename_i heq
       have h2 := fs_prepare_create_error heq
       simp [SUCCESS] at h h2
       exact h2 h)

/-- C1: contrary to the claim, `dentry_create` itself rejects the names `.`
and `..` (it calls the name validator, which refuses them), so the direct
population of the two special entries during `fs_format` and `fs_mkdir`
fails: both operations always return an error, never `SUCCESS`. -/
theorem C1_dentry_create_rejects_special_entries :
    (∀ n ty, dentry_create CURRENT_DIR n ty = .error ERROR_INVALID ∧
             dentry_create PARENT_DIR n ty = .error ERROR_INVALID) ∧
    (∀ d0 tb ti now, (fs_format d0 tb ti now).1 ≠ SUCCESS) ∧
    (∀ fs path perms now, (fs_mkdir fs path perms now).1 ≠ SUCCESS) :=
  ⟨fun n ty => ⟨dentry_create_dot n ty, dentry_create_dotdot n ty⟩,
   fs_format_no_success, fs_mkdir_no_success⟩

/-- C2: contrary to the claim (and to property S1 of the spec), formatting a
freshly attached 1000-block (512,000-byte) image with `total_blocks = 1000`
and `total_inodes = 128` does not succeed: `superblock_init` rejects any
image whose capacity is not strictly greater than `total_blocks`, so
`fs_format` returns `ERROR_NO_SPACE` and leaves the image untouched, and
`fs_mount` of the still-blank image fails with `ERROR_IO`. -/
theorem C2_format_1000_rejected :
    (fs_format (freshDisk 1000) 1000 128 0).1 = ERROR_NO_SPACE ∧
    (fs_format (freshDisk 1000) 1000 128 0).1 ≠ SUCCESS ∧
    (fs_format (freshDisk 1000) 1000 128 0).2 = freshDisk 1000 ∧
    fs_mount (freshDisk 1000) 0 = .error ERROR_IO :=
  ⟨rfl, by decide, rfl, rfl⟩


-- ===================================================================
-- THEOREMS — fs_rmdir on a non-empty directory (C5)
-- ===================================================================

theorem fsC5_valid : path_is_valid ['/', 'd'] = true := by
  simp [path_is_valid, path_parse, splitComps, PATH_SEPARATOR, filename_is_valid,
    MAX_PATH, MAX_FILENAME, CURRENT_DIR, PARENT_DIR]

theorem fsC5_parse : path_parse ['/', 'd'] = some ⟨true, [['d']]⟩ := by
  simp [path_parse, splitComps, PATH_SEPARATOR]

theorem fsC5_norm : path_normalize ['/', 'd'] = some ['/', 'd'] := by
  simp [path_normalize, fsC5_parse, normComps, normStep, renderPath, joinComps,
    CURRENT_DIR, PARENT_DIR, PATH_SEPARATOR]

theorem fsC5_resolve : fs_path_to_inode fsC5 ['/', 'd'] = .ok 2 := by
  simp only [fs_path_to_inode, fsC5_valid, fsC5_norm, fsC5_parse]
  rfl

/-- C5 (amended): for every mounted filesystem and valid non-root path that
resolves to a directory holding at least one entry besides `.` and `..`,
`fs_rmdir` fails with `ERROR_GENERIC` — not `ERROR_INVALID` as the claim
says — and returns the filesystem unchanged. -/
theorem C5_rmdir_nonempty_generic (fs : filesystem_t) (path : Str) (now : Nat)
    (tnum : Nat) (tino : inode) (entries : List dentry)
    (hvalid : path_is_valid path = true) (hroot : path_is_root path = false)
    (hres : fs_path_to_inode fs path = .ok tnum)
    (hread : inode_read fs.disk tnum = .ok tino)
    (hty : tino.type = INODE_TYPE_DIRECTORY)
    (hlist : dentry_list fs.disk tnum = .ok entries)
    (hne : 0 < (entries.filter
      (fun e => decide (e.name ≠ CURRENT_DIR ∧ e.name ≠ PARENT_DIR))).length) :
    fs_rmdir fs path now = ( ERROR_GENERIC, fs) := by
  simp only [fs_rmdir, hvalid, hroot, hres, hread, hty, hlist]
  rw [if_pos hne]
  simp

/-- Witness for C5 on the concrete filesystem `fsC5`, whose directory `/d`
contains the file `f`. -/
theorem C5_rmdir_witness :
    fs_rmdir fsC5 ['/', 'd'] 0 = ( ERROR_GENERIC, fsC5) :=
  C5_rmdir_nonempty_generic fsC5 ['/', 'd'] 0 2 (dirIno2 5 7 2)
    [mkDentry CURRENT_DIR 2 INODE_TYPE_DIRECTORY,
     mkDentry PARENT_DIR 1 INODE_TYPE_DIRECTORY,
     mkDentry ['f'] 3 INODE_TYPE_FILE]
    fsC5_valid rfl fsC5_resolve rfl rfl rfl (by decide)

/-- Counterexample to C5 as claimed: removing the non-empty directory `/d`
of `fsC5` yields `ERROR_GENERIC`, which is not the claimed `ERROR_INVALID`. -/
theorem C5_rmdir_not_invalid :
    (fs_rmdir fsC5 ['/', 'd'] 0).1 = ERROR_GENERIC ∧
    ERROR_GENERIC ≠ ERROR_INVALID := by
  have hread : inode_read fsC5.disk 2 = .ok (dirIno2 5 7 2) := rfl
  have hlist : dentry_list fsC5.disk 2 = .ok
      [mkDentry CURRENT_DIR 2 INODE_TYPE_DIRECTORY,
       mkDentry PARENT_DIR 1 INODE_TYPE_DIRECTORY,
       mkDentry ['f'] 3 INODE_TYPE_FILE] := rfl
  have hmain : fs_rmdir fsC5 ['/', 'd'] 0 = ( ERROR_GENERIC, fsC5) := by
    simp only [fs_rmdir, fsC5_valid, fsC5_resolve, hread, hlist]
    rw [if_pos (show 0 < (List.filter
      (fun e => decide (e.name ≠ CURRENT_DIR ∧ e.name ≠ PARENT_DIR))
      [mkDentry CURRENT_DIR 2 INODE_TYPE_DIRECTORY,
       mkDentry PARENT_DIR 1 INODE_TYPE_DIRECTORY,
       mkDentry ['f'] 3 INODE_TYPE_FILE]).length by decide)]
    simp [path_is_root, PATH_SEPARATOR, dirIno2, INODE_TYPE_DIRECTORY]
  exact ⟨by rw [hmain], by decide⟩


-- ===================================================================
-- THEOREMS — read/write permission gate (C3)
-- ===================================================================

/-- C3 (amended): `fs_read` and `fs_write` are gated by the same mask: each
returns `ERROR_PERMISSION` exactly when `flags &&& 0x03 = 0`.  In particular
a WRONLY-only handle passes the read gate and a RDONLY-only handle passes
the write gate, contrary to the claim. -/
theorem C3_read_write_permission_gate (fs : filesystem_t) (f : open_file_t)
    (size : Nat) (buf : List Nat) (now : Nat) :
    ((fs_read fs f size now).1 = ERROR_PERMISSION ↔ f.flags &&& FS_O_RDWR = 0) ∧
    ((fs_write fs f buf now).1 = ERROR_PERMISSION ↔ f.flags &&& FS_O_RDWR = 0) := by
  have hm1 : FS_O_RDONLY ||| FS_O_RDWR = FS_O_RDWR := by decide
  have hm2 : FS_O_WRONLY ||| FS_O_RDWR = FS_O_RDWR := by decide
  constructor
  · rw [fs_read, hm1]
    split
    · rename_i hg; simp [hg]
    · rename_i hg
      constructor
      · intro h
        exfalso
        cases hx : read_inode_data fs.disk f.inode f.offset size with
        | error e =>
          rw [hx] at h
          simp at h
          rcases read_inode_data_error hx with h1 | h1 <;>
            simp [h1, ERROR_INVALID, ERROR_IO, ERROR_PERMISSION] at h
        | ok r =>
          obtain ⟨bytes, n⟩ := r
          rw [hx] at h
          simp [SUCCESS, ERROR_PERMISSION] at h
      · intro h; exact absurd h hg
  · rw [fs_write, hm2]
    split
    · rename_i hg; simp [hg]
    · rename_i hg
      constructor
      · intro h
        exfalso
        cases hx : write_inode_data fs.disk fs.block_bitmap f.inode f.inode_num
            f.offset buf now with
        | error e =>
          rw [hx] at h
          simp at h
          rcases write_inode_data_error hx with h1 | h1 <;>
            simp [h1, ERROR_NO_SPACE, ERROR_IO, ERROR_PERMISSION] at h
        | ok r =>
          obtain ⟨d2, bbm2, ino2, written⟩ := r
          rw [hx] at h
          simp [SUCCESS, ERROR_PERMISSION] at h
      · intro h; exact absurd h hg

/-- Witness for C3 on a RDONLY handle of the demonstration filesystem. -/
theorem C3_gate_witness :
    ((fs_read fsDemo (fhDemo FS_O_RDONLY) 0 0).1 = ERROR_PERMISSION ↔
      (fhDemo FS_O_RDONLY).flags &&& FS_O_RDWR = 0) ∧
    ((fs_write fsDemo (fhDemo FS_O_RDONLY) [] 0).1 = ERROR_PERMISSION ↔
      (fhDemo FS_O_RDONLY).flags &&& FS_O_RDWR = 0) :=
  C3_read_write_permission_gate fsDemo (fhDemo FS_O_RDONLY) 0 [] 0

/-- Counterexample to C3 as claimed: a read on a WRONLY-only handle and a
write on a RDONLY-only handle both succeed (the claim says PERMISSION). -/
theorem C3_wronly_read_rdonly_write_succeed :
    (fs_read fsDemo (fhDemo FS_O_WRONLY) 0 0).1 = SUCCESS ∧
    (fs_write fsDemo (fhDemo FS_O_RDONLY) [] 0).1 = SUCCESS := by
  constructor
  · have hr : read_inode_data fsDemo.disk (fhDemo FS_O_WRONLY).inode
        (fhDemo FS_O_WRONLY).offset 0 = .ok ([], 0) := by
      simp [read_inode_data, fhDemo, fileInoDemo]
    simp only [fs_read, hr]
    simp [fhDemo, FS_O_WRONLY, FS_O_RDONLY, FS_O_RDWR]
  · have hw : write_inode_data fsDemo.disk fsDemo.block_bitmap
        (fhDemo FS_O_RDONLY).inode (fhDemo FS_O_RDONLY).inode_num
        (fhDemo FS_O_RDONLY).offset [] 0 = .ok
        ((writeIgnore fsDemo.disk (inode_write fsDemo.disk 2
            { fileInoDemo with modified_time := 0 })), fsDemo.block_bitmap,
          { fileInoDemo with modified_time := 0 }, 0) := by
      simp [write_inode_data, fhDemo, fileInoDemo, U32]
      rw [write_loop]
      simp
      rfl
    simp only [fs_write, hw]
    simp [fhDemo, FS_O_WRONLY, FS_O_RDONLY, FS_O_RDWR]

-- ===================================================================
-- THEOREMS — write accounting and full write counts (C4, C10)
-- ===================================================================

theorem save_bitmaps_ok {fs fs2 : filesystem_t} (h : save_bitmaps fs = .ok fs2) :
    fs2.sb = fs.sb ∧ fs2.block_bitmap = fs.block_bitmap ∧
    fs2.inode_bitmap = fs.inode_bitmap := by
  unfold save_bitmaps at h
  cases h1 : save_bitmap_region fs.disk fs.block_bitmap fs.sb.block_bitmap_start
      fs.sb.block_bitmap_blocks with
  | error e => rw [h1, bind_error] at h; cases h
  | ok d1 =>
    rw [h1, bind_ok] at h
    cases h2 : save_bitmap_region d1 fs.inode_bitmap fs.sb.inode_bitmap_start
        fs.sb.inode_bitmap_blocks with
    | error e => rw [h2, bind_error] at h; cases h
    | ok d2 =>
      rw [h2, bind_ok, pure_eq_ok] at h
      cases h
      exact ⟨rfl, rfl, rfl⟩

theorem fs_write_ok_shape (fs : filesystem_t) (f : open_file_t) (buf : List Nat)
    (now : Nat) (d2 : disk_t) (bbm2 : bitmap) (ino2 : inode) (written : Nat)
    (hg : ¬ f.flags &&& (FS_O_WRONLY ||| FS_O_RDWR) = 0)
    (hx : write_inode_data fs.disk fs.block_bitmap f.inode f.inode_num
        f.offset buf now = .ok (d2, bbm2, ino2, written)) :
    (fs_write fs f buf now).1 = SUCCESS ∧
    (fs_write fs f buf now).2.1.sb = fs.sb ∧
    (fs_write fs f buf now).2.1.block_bitmap = bbm2 ∧
    (fs_write fs f buf now).2.2.2 = written := by
  rw [fs_write, if_neg hg, hx]
  cases hsb : save_bitmaps { fs with disk := d2, block_bitmap := bbm2 } with
  | error e => simp [writeIgnore, hsb]
  | ok fsX =>
    have h2 := save_bitmaps_ok hsb
    simp [writeIgnore, hsb, h2.1, h2.2.1]

theorem fsDemo_write42 :
    (write_inode_data fsDemo.disk fsDemo.block_bitmap fileInoDemo 2 0 [42] 0).map
      (fun r => (r.2.1, r.2.2.2)) =
    .ok (⟨[true, true, true, true, true, false, false, false]⟩, 1) := by
  have hbs : BLOCK_SIZE / INODE_SIZE = 4 := by decide
  have hmin : min 1 BLOCK_SIZE = 1 := by decide
  have hfind : bitmap_find_first_free
      (⟨[true, true, true, true, false, false, false, false]⟩ : bitmap) = 4 := rfl
  have hsetb : (bitmap_set
      (⟨[true, true, true, true, false, false, false, false]⟩ : bitmap) 4).2 =
      ⟨[true, true, true, true, true, false, false, false]⟩ := rfl
  simp only [write_inode_data]
  simp [write_loop, hmin, hbs, bitmap.mk.injEq, hfind, hsetb, fsDemo, sbDemo, fileInoDemo,
    disk_read_block, disk_write_block, inode_write, superblock_read,
    superblock_is_valid, inode_get_disk_position, orIO, Except.map,
    Block.asSb, Block.asInodes, zero_inode, rootInoDemo, U32, MAGIC_NUMBER, inc32,
    SUPERBLOCK_BLOCK_NUM, DISK_ERROR_INVALID_BLOCK, zero_superblock,
    Bind.bind, Except.bind, pure, Except.pure]

theorem fsDemo_write42_shape :
    (fs_write fsDemo (fhDemo FS_O_RDWR) [42] 0).1 = SUCCESS ∧
    (fs_write fsDemo (fhDemo FS_O_RDWR) [42] 0).2.1.sb = fsDemo.sb ∧
    (fs_write fsDemo (fhDemo FS_O_RDWR) [42] 0).2.1.block_bitmap =
      ⟨[true, true, true, true, true, false, false, false]⟩ := by
  have hmap := fsDemo_write42
  cases hx : write_inode_data fsDemo.disk fsDemo.block_bitmap fileInoDemo 2 0 [42] 0 with
  | error e => rw [hx] at hmap; simp [Except.map] at hmap
  | ok r =>
    obtain ⟨d2, bbm2, ino2, written⟩ := r
    rw [hx] at hmap
    simp [Except.map] at hmap
    obtain ⟨hb, hw1⟩ := hmap
    have hsh := fs_write_ok_shape fsDemo (fhDemo FS_O_RDWR) [42] 0 d2 bbm2 ino2 written
      (by decide) hx
    exact ⟨hsh.1, hsh.2.1, by rw [hsh.2.2.1, hb]⟩

theorem write_inode_data_full_count {d : disk_t} {bbm : bitmap} {ino : inode}
    {inode_num offset : Nat} {buf : List Nat} {now : Nat}
    {r : disk_t × bitmap × inode × Nat}
    (h : write_inode_data d bbm ino inode_num offset buf now = .ok r) :
    r.2.2.2 = buf.length := by
  unfold write_inode_data at h
  simp only [] at h
  split at h
  · cases h
  · split at h
    · cases h
    · cases h; rfl

/-- C4: the bitmap-accounting invariant does not survive the operations: the
demonstration state satisfies both counter equations, a 1-byte `fs_write`
succeeds (allocating data block 4), yet afterwards `free_blocks` (still 4)
no longer equals the number of free bits of the block bitmap (now 3) —
block allocation never debits `free_blocks`. -/
theorem C4_bitmap_accounting_not_invariant :
    fsDemo.sb.free_blocks = bitmap_count_free fsDemo.block_bitmap ∧
    fsDemo.sb.free_inodes = bitmap_count_free fsDemo.inode_bitmap ∧
    (fs_write fsDemo (fhDemo FS_O_RDWR) [42] 0).1 = SUCCESS ∧
    (fs_write fsDemo (fhDemo FS_O_RDWR) [42] 0).2.1.sb.free_blocks ≠
      bitmap_count_free ((fs_write fsDemo (fhDemo FS_O_RDWR) [42] 0).2.1.block_bitmap) := by
  obtain ⟨h1, h2, h3⟩ := fsDemo_write42_shape
  refine ⟨rfl, rfl, h1, ?_⟩
  rw [h2, h3]
  decide

/-- C10: a successful `fs_write` always reports the full requested byte
count: `write_inode_data` only ever returns the whole buffer length, and any
allocation or persistence failure surfaces as an error code instead of a
short count. -/
theorem C10_no_short_writes (fs : filesystem_t) (f : open_file_t)
    (buf : List Nat) (now : Nat)
    (h : (fs_write fs f buf now).1 = SUCCESS) :
    (fs_write fs f buf now).2.2.2 = buf.length := by
  by_cases hg : f.flags &&& (FS_O_WRONLY ||| FS_O_RDWR) = 0
  · exfalso
    rw [fs_write, if_pos hg] at h
    simp [ERROR_PERMISSION, SUCCESS] at h
  · cases hx : write_inode_data fs.disk fs.block_bitmap f.inode f.inode_num
        f.offset buf now with
    | error e =>
      exfalso
      rw [fs_write, if_neg hg, hx] at h
      simp at h
      rcases write_inode_data_error hx with h1 | h1 <;>
        simp [h1, ERROR_NO_SPACE, ERROR_IO, SUCCESS] at h
    | ok r =>
      obtain ⟨d2, bbm2, ino2, written⟩ := r
      have hsh := fs_write_ok_shape fs f buf now d2 bbm2 ino2 written hg hx
      rw [hsh.2.2.2]
      exact write_inode_data_full_count hx

/-- Witness for C10: the 1-byte write on the demonstration filesystem
succeeds and reports exactly 1 byte written. -/
theorem C10_witness :
    (fs_write fsDemo (fhDemo FS_O_RDWR) [42] 0).1 = SUCCESS ∧
    (fs_write fsDemo (fhDemo FS_O_RDWR) [42] 0).2.2.2 = 1 :=
  ⟨fsDemo_write42_shape.1,
   C10_no_short_writes fsDemo (fhDemo FS_O_RDWR) [42] 0 fsDemo_write42_shape.1⟩

-- ===================================================================
-- THEOREMS — hole-freedom of file inodes
-- ===================================================================

/-- Hole-freedom of the direct zone: within the 12 direct slots, an inode holds a
non-zero block pointer exactly at the block indices below `ceil(size/512)`
(equivalently: at every `j` with `j * BLOCK_SIZE < size`), so files have no
holes and no stale pointers past their size. -/
def inode_no_holes (ino : inode) : Prop :=
  ino.direct.length = 12 ∧
  ∀ j, j < 12 → (ino.direct.getD j 0 ≠ 0 ↔ j * BLOCK_SIZE < ino.size)

/-- A pointer list whose non-zero entries form a prefix: anything non-zero at
index `j` forces every earlier index non-zero. -/
def prefix_allocated (l : List Nat) : Prop :=
  ∀ i j, i ≤ j → j < l.length → l.getD j 0 ≠ 0 → l.getD i 0 ≠ 0

theorem getD_set_ne {l : List Nat} {v i j : Nat} (h : i ≠ j) :
    (l.set i v).getD j 0 = l.getD j 0 := by
  simp [List.getD_eq_getElem?_getD, List.getElem?_set_ne h]

theorem getD_set_self {l : List Nat} {v i : Nat} (hi : i < l.length) :
    (l.set i v).getD i 0 = v := by
  simp [List.getD_eq_getElem?_getD, List.getElem?_set_self, hi]

theorem getD_take {l : List Nat} {n j : Nat} (hj : j < n) :
    (l.take n).getD j 0 = l.getD j 0 := by
  simp [List.getD_eq_getElem?_getD, List.getElem?_take, hj]

theorem bitmap_find_first_free_toNat_pos {b : bitmap}
    (h : ¬ bitmap_find_first_free b < 0) :
    1 ≤ (bitmap_find_first_free b).toNat := by
  unfold bitmap_find_first_free bitmap_find_next_free at h ⊢
  cases hf : (List.range' 1 (b.data.length - 1)).find? (fun i => !bitmap_get b i) with
  | none => rw [hf] at h; simp [ERROR_NOT_FOUND] at h
  | some i =>
    have hm := List.mem_of_find?_eq_some hf
    have h1 := List.mem_range'.mp hm
    simp
    omega

theorem prefix_allocated_tail {x : Nat} {xs : List Nat}
    (h : prefix_allocated (x :: xs)) : prefix_allocated xs := by
  intro i j hij hjl hnz
  have h2 := h (i + 1) (j + 1) (by omega) (by simp; omega)
  simp only [List.getD_cons_succ] at h2
  exact h2 hnz

theorem takeWhile_eq_filter_of_prefix {l : List Nat} (h : prefix_allocated l) :
    l.takeWhile (· ≠ 0) = l.filter (· ≠ 0) := by
  induction l with
  | nil => rfl
  | cons x xs ih =>
    by_cases hx : x = 0
    · subst hx
      have hall : ∀ a ∈ xs, a = 0 := by
        intro y hy
        obtain ⟨k, hk, hky⟩ := List.mem_iff_getElem.mp hy
        by_contra hy0
        have hz := h 0 (k + 1) (by omega) (by simp; omega)
          (by
            simp only [List.getD_cons_succ]
            rw [List.getD_eq_getElem?_getD, List.getElem?_eq_getElem hk, hky]
            simpa using hy0)
        simp [List.getD_cons_zero] at hz
      have hfil : xs.filter (· ≠ 0) = [] :=
        List.filter_eq_nil_iff.mpr (by intro a ha; simpa using hall a ha)
      simp [List.takeWhile_cons, List.filter_cons, hfil]
      exact hall
    · have ht := ih (prefix_allocated_tail h)
      simp [List.takeWhile_cons, List.filter_cons, hx]
      simpa using ht

theorem free_direct_blocks_filter {bbm : bitmap} {fb : Nat} {l : List Nat}
    (h : prefix_allocated l) :
    free_direct_blocks bbm fb l = (l.filter (· ≠ 0)).foldl
      (fun acc p => ((bitmap_clear acc.1 p).2, inc32 acc.2)) (bbm, fb) := by
  rw [free_direct_blocks, takeWhile_eq_filter_of_prefix h]

theorem inode_no_holes_prefix {ino : inode} (h : inode_no_holes ino) :
    prefix_allocated (ino.direct.take 12) := by
  obtain ⟨hlen, hiff⟩ := h
  intro i j hij hjlen hnz
  have hjl : j < 12 := by
    simp [List.length_take, hlen] at hjlen
    omega
  have hil : i < 12 := lt_of_le_of_lt hij hjl
  rw [getD_take hjl] at hnz
  rw [getD_take hil]
  have hj2 := (hiff j hjl).mp hnz
  exact (hiff i hil).mpr (by
    have : i * BLOCK_SIZE ≤ j * BLOCK_SIZE := Nat.mul_le_mul_right _ hij
    omega)


theorem write_loop_ok_direct :
    ∀ (remaining : Nat) {d : disk_t} {bbm : bitmap} {ino : inode}
      {inode_num idx intra : Nat} {buf : List Nat} {modified : Bool}
      {h : intra < BLOCK_SIZE} {r : disk_t × bitmap × inode × Bool},
    write_loop d bbm ino inode_num idx intra buf remaining modified h = .ok r →
    r.2.2.1.direct.length = ino.direct.length ∧
    r.2.2.1.size = ino.size ∧
    (∀ j, j < 12 →
      (remaining = 0 ∨ j < idx ∨ intra + remaining ≤ (j - idx) * BLOCK_SIZE) →
      r.2.2.1.direct.getD j 0 = ino.direct.getD j 0) ∧
    (∀ j, j < 12 → idx ≤ j → (j - idx) * BLOCK_SIZE < intra + remaining →
      0 < remaining → ino.direct.length = 12 → r.2.2.1.direct.getD j 0 ≠ 0) := by
  intro remaining
  induction remaining using Nat.strong_induction_on with
  | _ remaining ih =>
    intro d bbm ino inode_num idx intra buf modified h r hok
    rw [write_loop] at hok
    simp only [] at hok
    split at hok
    · rename_i hr0
      cases hok
      exact ⟨rfl, rfl, fun j hj hg => rfl, fun j hj hij hcov hpos hlen => by omega⟩
    · rename_i hr0
      have hlt : remaining - min remaining (BLOCK_SIZE - intra) < remaining := by
        have h2 : 1 ≤ min remaining (BLOCK_SIZE - intra) := le_min (by omega) (by omega)
        have h3 := Nat.min_le_left remaining (BLOCK_SIZE - intra)
        omega
      split at hok
      · -- direct zone: idx < 12
        rename_i hidx
        split at hok
        · -- fresh direct data block
          rename_i hbn
          split at hok
          · cases hok
          · rename_i hnbi
            split at hok
            · cases hok
            · rename_i d4 hd4
              obtain ⟨hL, hS, hA, hB⟩ := ih _ hlt hok
              have hnb : 1 ≤ (bitmap_find_first_free bbm).toNat :=
                bitmap_find_first_free_toNat_pos hnbi
              refine ⟨?_, ?_, ?_, ?_⟩
              · rw [hL]; exact List.length_set ..
              · rw [hS]
              · intro j hj hg
                have hne : idx ≠ j := by
                  rcases hg with hg | hg | hg
                  · exact absurd hg hr0
                  · omega
                  · simp only [BLOCK_SIZE] at hg; omega
                have hrecg : (remaining - min remaining (BLOCK_SIZE - intra) = 0) ∨
                    j < idx + 1 ∨
                    0 + (remaining - min remaining (BLOCK_SIZE - intra)) ≤
                      (j - (idx + 1)) * BLOCK_SIZE := by
                  rcases hg with hg | hg | hg
                  · exact absurd hg hr0
                  · exact Or.inr (Or.inl (by omega))
                  · by_cases hz : remaining - min remaining (BLOCK_SIZE - intra) = 0
                    · exact Or.inl hz
                    · right; right
                      simp only [BLOCK_SIZE] at hg ⊢
                      omega
                rw [hA j hj hrecg]
                exact getD_set_ne hne
              · intro j hj hij hcov hpos hlen
                by_cases hje : j = idx
                · subst hje
                  have hrec := hA j hj (Or.inr (Or.inl (by omega)))
                  have hval : r.2.2.1.direct.getD j 0 =
                      (bitmap_find_first_free bbm).toNat := by
                    rw [hrec]
                    exact getD_set_self (by omega)
                  rw [hval]
                  omega
                · have hd : j - idx = (j - (idx + 1)) + 1 := by omega
                  have hcov2 : (j - (idx + 1)) * BLOCK_SIZE <
                      0 + (remaining - min remaining (BLOCK_SIZE - intra)) := by
                    rw [hd] at hcov
                    simp only [BLOCK_SIZE] at hcov h ⊢
                    omega
                  have hpos2 : 0 < remaining - min remaining (BLOCK_SIZE - intra) := by
                    rw [hd] at hcov
                    simp only [BLOCK_SIZE] at hcov h
                    omega
                  exact hB j hj (by omega) hcov2 hpos2 (by simpa using hlen)
        · -- existing direct block
          rename_i hbn
          split at hok
          · cases hok
          · rename_i base hbase
            split at hok
            · cases hok
            · rename_i d4 hd4
              obtain ⟨hL, hS, hA, hB⟩ := ih _ hlt hok
              refine ⟨hL, hS, ?_, ?_⟩
              · intro j hj hg
                apply hA j hj
                rcases hg with hg | hg | hg
                · exact absurd hg hr0
                · exact Or.inr (Or.inl (by omega))
                · by_cases hz : remaining - min remaining (BLOCK_SIZE - intra) = 0
                  · exact Or.inl hz
                  · right; right
                    simp only [BLOCK_SIZE] at hg ⊢
                    omega
              · intro j hj hij hcov hpos hlen
                by_cases hje : j = idx
                · subst hje
                  rw [hA j hj (Or.inr (Or.inl (by omega)))]
                  exact hbn
                · have hd : j - idx = (j - (idx + 1)) + 1 := by omega
                  have hcov2 : (j - (idx + 1)) * BLOCK_SIZE <
                      0 + (remaining - min remaining (BLOCK_SIZE - intra)) := by
                    rw [hd] at hcov
                    simp only [BLOCK_SIZE] at hcov h ⊢
                    omega
                  have hpos2 : 0 < remaining - min remaining (BLOCK_SIZE - intra) := by
                    rw [hd] at hcov
                    simp only [BLOCK_SIZE] at hcov h
                    omega
                  exact hB j hj (by omega) hcov2 hpos2 hlen
      · -- indirect zone: ¬ idx < 12
        rename_i hidx
        split at hok
        · cases hok
        · rename_i hcap
          split at hok
          · cases hok
          · rename_i d1 bbm1 ino1 mod1 heq
            have hino1 : ino1.direct = ino.direct ∧ ino1.size = ino.size := by
              repeat' split at heq
              all_goals
                first
                | (cases heq; exact ⟨rfl, rfl⟩)
                | (cases heq)
            split at hok
            · cases hok
            · rename_i iblk hiblk
              split at hok
              · rename_i hp0
                split at hok
                · cases hok
                · rename_i hnbi
                  split at hok
                  · cases hok
                  · rename_i dA hdA
                    split at hok
                    · cases hok
                    · rename_i d3 hd3
                      obtain ⟨hL, hS, hA, hB⟩ := ih _ hlt hok
                      refine ⟨?_, ?_, ?_, ?_⟩
                      · rw [hL]; exact congrArg List.length hino1.1
                      · rw [hS]; exact hino1.2
                      · intro j hj hg
                        have hrec := hA j hj (Or.inr (Or.inl (by omega)))
                        rw [hrec]
                        exact congrArg (fun l => l.getD j 0) hino1.1
                      · intro j hj hij hcov hpos hlen
                        omega
              · rename_i hp0
                split at hok
                · cases hok
                · rename_i base hbase
                  split at hok
                  · cases hok
                  · rename_i d3 hd3
                    obtain ⟨hL, hS, hA, hB⟩ := ih _ hlt hok
                    refine ⟨?_, ?_, ?_, ?_⟩
                    · rw [hL]; exact congrArg List.length hino1.1
                    · rw [hS]; exact hino1.2
                    · intro j hj hg
                      have hrec := hA j hj (Or.inr (Or.inl (by omega)))
                      rw [hrec]
                      exact congrArg (fun l => l.getD j 0) hino1.1
                    · intro j hj hij hcov hpos hlen
                      omega


theorem write_inode_data_no_holes {d : disk_t} {bbm : bitmap} {ino : inode}
    {inode_num offset : Nat} {buf : List Nat} {now : Nat}
    {r : disk_t × bitmap × inode × Nat}
    (hn : inode_no_holes ino) (hoff : offset ≤ ino.size)
    (hfit : offset + buf.length < U32)
    (hok : write_inode_data d bbm ino inode_num offset buf now = .ok r) :
    inode_no_holes r.2.2.1 := by
  obtain ⟨hlen, hiff⟩ := hn
  have hrem : buf.length % U32 = buf.length := Nat.mod_eq_of_lt (by omega)
  have hend : (offset + buf.length) % U32 = offset + buf.length :=
    Nat.mod_eq_of_lt hfit
  unfold write_inode_data at hok
  simp only [] at hok
  rw [hrem] at hok
  split at hok
  · cases hok
  · rename_i d2 bbm2 ino2 mod2 hwl
    obtain ⟨hL, hS, hA, hB⟩ := write_loop_ok_direct _ hwl
    have hlen2 : ino2.direct.length = 12 := hL.trans hlen
    have hiff2 : ∀ j, j < 12 →
        (ino2.direct.getD j 0 ≠ 0 ↔
          j * BLOCK_SIZE < max ino.size (offset + buf.length)) := by
      intro j hj
      by_cases hL0 : buf.length = 0
      · have hun := hA j hj (Or.inl hL0)
        rw [hun]
        rw [show max ino.size (offset + buf.length) = ino.size from by omega]
        exact hiff j hj
      · constructor
        · intro hnz
          by_cases hcov : offset / BLOCK_SIZE ≤ j ∧
              (j - offset / BLOCK_SIZE) * BLOCK_SIZE <
                offset % BLOCK_SIZE + buf.length
          · simp only [BLOCK_SIZE] at hcov ⊢
            omega
          · have hun := hA j hj (by
              simp only [BLOCK_SIZE] at hcov ⊢
              omega)
            rw [hun] at hnz
            have hlt2 := (hiff j hj).mp hnz
            omega
        · intro hlt2
          by_cases hcov : offset / BLOCK_SIZE ≤ j ∧
              (j - offset / BLOCK_SIZE) * BLOCK_SIZE <
                offset % BLOCK_SIZE + buf.length
          · exact hB j hj hcov.1 hcov.2 (by omega) hlen
          · have hun := hA j hj (by
              simp only [BLOCK_SIZE] at hcov ⊢
              omega)
            rw [hun]
            apply (hiff j hj).mpr
            simp only [BLOCK_SIZE] at hcov hlt2 ⊢
            omega
    split at hok
    · cases hok
    · rename_i d3 hd3
      cases hok
      split
      · rename_i hgrow
        rw [hend] at hgrow
        refine ⟨hlen2, ?_⟩
        intro j hj
        show ino2.direct.getD j 0 ≠ 0 ↔ j * BLOCK_SIZE < (offset + buf.length) % U32
        rw [hend, hiff2 j hj]
        simp only [BLOCK_SIZE] at *
        omega
      · rename_i hgrow
        rw [hend] at hgrow
        refine ⟨hlen2, ?_⟩
        intro j hj
        show ino2.direct.getD j 0 ≠ 0 ↔ j * BLOCK_SIZE < ino2.size
        rw [hiff2 j hj]
        simp only [BLOCK_SIZE] at *
        omega

/-- The mechanism lemmas above combined: `fs_seek` clamps every offset into
`[0, size]`; writing through `write_inode_data` at an offset within the
current size preserves the no-holes shape of the direct zone (non-zero
pointers exactly below `ceil(size/512)`); a hole-free pointer list is
prefix-allocated; and on a prefix-allocated list the freeing loop that
stops at the first zero pointer (`free_direct_blocks`, used by unlink and
truncation) still visits and frees exactly the non-zero (allocated)
pointers. -/
theorem no_holes_mechanisms :
    (∀ f off, (fs_seek f off).1 = SUCCESS ∧ (fs_seek f off).2.offset ≤ f.inode.size) ∧
    (∀ (d : disk_t) (bbm : bitmap) (ino : inode) (inode_num offset : Nat)
       (buf : List Nat) (now : Nat) (r : disk_t × bitmap × inode × Nat),
      inode_no_holes ino → offset ≤ ino.size → offset + buf.length < U32 →
      write_inode_data d bbm ino inode_num offset buf now = .ok r →
      inode_no_holes r.2.2.1) ∧
    (∀ ino, inode_no_holes ino → prefix_allocated (ino.direct.take 12)) ∧
    (∀ (bbm : bitmap) (fb : Nat) (l : List Nat), prefix_allocated l →
      free_direct_blocks bbm fb l = (l.filter (· ≠ 0)).foldl
        (fun acc p => ((bitmap_clear acc.1 p).2, inc32 acc.2)) (bbm, fb)) := by
  refine ⟨?_, ?_, ?_, ?_⟩
  · intro f off
    refine ⟨rfl, ?_⟩
    show (if off > f.inode.size then f.inode.size else off) ≤ f.inode.size
    split <;> omega
  · intro d bbm ino inode_num offset buf now r h1 h2 h3 h4
    exact write_inode_data_no_holes h1 h2 h3 h4
  · intro ino h
    exact inode_no_holes_prefix h
  · intro bbm fb l h
    exact free_direct_blocks_filter h

-- ===================================================================
-- THEOREMS — create/unlink round trip
-- ===================================================================

theorem remove_dentry_from_block_error {d : disk_t} {b : Nat} {name : Str} {e : Int}
    (h : remove_dentry_from_block d b name = .error e) :
    e = ERROR_INVALID ∨ e = ERROR_IO := by
  unfold remove_dentry_from_block at h
  simp only [] at h
  split at h
  · cases h; simp
  · split at h
    · cases h; simp
    · split at h
      · split at h
        · cases h; simp
        · cases h
      · cases h

theorem remove_in_blocks_error {d : disk_t} {name : Str} {n : Nat} {dir : inode}
    {now : Nat} :
    ∀ {bs : List Nat} {e : Int},
    remove_in_blocks d name n dir now bs = .error e →
    e = ERROR_INVALID ∨ e = ERROR_IO := by
  intro bs
  induction bs generalizing d with
  | nil => intro e h; simp [remove_in_blocks] at h
  | cons b rest ih =>
    intro e h
    unfold remove_in_blocks at h
    cases hr : remove_dentry_from_block d b name with
    | error e2 =>
      rw [hr, bind_error] at h
      cases h
      exact remove_dentry_from_block_error hr
    | ok p =>
      rw [hr, bind_ok] at h
      obtain ⟨d2, found⟩ := p
      split at h
      split at h
      · simp [pure_eq_ok] at h
      · exact ih h

theorem dentry_remove_error {d : disk_t} {n : Nat} {name : Str} {now : Nat} {e : Int}
    (h : dentry_remove d n name now = .error e) :
    e = ERROR_INVALID ∨ e = ERROR_IO ∨ e = ERROR_NOT_FOUND := by
  unfold dentry_remove at h
  cases hr : orIO (inode_read d n) with
  | error e2 =>
    rw [hr, bind_error] at h
    cases h
    exact Or.inr (Or.inl (orIO_error hr))
  | ok dir =>
    rw [hr, bind_ok] at h
    split at h
    · simp at h; simp [h]
    · cases hb : remove_in_blocks d name n dir now
          ((dir.direct.take 12).takeWhile (· ≠ 0)) with
      | error e2 =>
        rw [hb, bind_error] at h
        cases h
        rcases remove_in_blocks_error hb with h2 | h2 <;> simp [h2]
      | ok r =>
        rw [hb, bind_ok] at h
        cases r with
        | some d2 => simp [pure_eq_ok] at h
        | none =>
          simp only [] at h
          split at h
          · cases hib : orIO (disk_read_block d dir.indirect) with
            | error e3 =>
              rw [hib, bind_error] at h
              cases h
              exact Or.inr (Or.inl (orIO_error hib))
            | ok iblk =>
              rw [hib, bind_ok] at h
              cases hb2 : remove_in_blocks d name n dir now
                  ((iblk.asPtrs.take (BLOCK_SIZE / 4)).takeWhile (· ≠ 0)) with
              | error e4 =>
                rw [hb2, bind_error] at h
                cases h
                rcases remove_in_blocks_error hb2 with h2 | h2 <;> simp [h2]
              | ok r2 =>
                rw [hb2, bind_ok] at h
                cases r2 with
                | some d2 => simp [pure_eq_ok] at h
                | none => simp at h; simp [h]
          · simp at h; simp [h]

theorem writeIgnore_save_bitmaps_sb (fs : filesystem_t) :
    (writeIgnore fs (save_bitmaps fs)).sb = fs.sb := by
  cases hsv : save_bitmaps fs with
  | error e => simp [writeIgnore]
  | ok fsX => simp [writeIgnore, (save_bitmaps_ok hsv).1]

theorem inc32_dec32 {x : Nat} (h : x < U32) : inc32 (dec32 x) = x := by
  simp only [inc32, dec32, U32] at *
  omega

theorem fs_create_ok_free_inodes {fs : filesystem_t} {path : Str} {perms now : Nat}
    {fs1 : filesystem_t} (h : fs_create fs path perms now = (SUCCESS, fs1)) :
    fs1.sb.free_inodes = dec32 fs.sb.free_inodes := by
  unfold fs_create at h
  simp only [] at h
  repeat' split at h
  all_goals
    first
    | (have h1 := congrArg Prod.fst h
       simp [SUCCESS, ERROR_INVALID, ERROR_IO, ERROR_NO_SPACE, ERROR_GENERIC] at h1
       done)
    | (rename_i heq
       have h1 := congrArg Prod.fst h
       have h2 := fs_prepare_create_error heq
       simp only [] at h1
       exact absurd h1 h2)
    | (have h2 := congrArg Prod.snd h
       simp only [] at h2
       rw [← h2]
       simp [writeIgnore_save_bitmaps_sb])


theorem pure_bind {α β : Type} (a : α) (f : α → Except Int β) :
    (pure a : Except Int α) >>= f = f a := rfl

theorem free_indirect_blocks_error {d : disk_t} {bbm : bitmap} {fb ind : Nat} {e : Int}
    (h : free_indirect_blocks d bbm fb ind = .error e) : e = ERROR_IO := by
  unfold free_indirect_blocks at h
  simp only [] at h
  repeat' split at h
  all_goals
    first
    | (cases h; rfl)
    | (cases h)

theorem inode_free_error {d : disk_t} {ibm bbm : bitmap} {n : Nat} {e : Int}
    (h : inode_free d ibm bbm n = .error e) : e = ERROR_IO := by
  unfold inode_free at h
  cases h1 : orIO (inode_read d n) with
  | error e1 => rw [h1, bind_error] at h; cases h; exact orIO_error h1
  | ok ino =>
    rw [h1, bind_ok] at h
    simp only [] at h
    split at h
    · cases h2 : orIO (disk_read_block d ino.indirect) with
      | error e2 =>
        rw [h2] at h
        simp only [bind_error] at h
        cases h
        exact orIO_error h2
      | ok blk =>
        rw [h2] at h
        simp only [bind_ok, pure_bind, bind_error] at h
        cases h3 : orIO (inode_write d n { zero_inode with type := INODE_TYPE_FREE }) with
        | error e3 =>
          rw [h3] at h
          simp only [bind_error] at h
          cases h
          exact orIO_error h3
        | ok d2 =>
          rw [h3] at h
          simp only [bind_ok, pure_eq_ok] at h
          cases h
    · simp only [pure_bind] at h
      cases h3 : orIO (inode_write d n { zero_inode with type := INODE_TYPE_FREE }) with
      | error e3 =>
        rw [h3] at h
        simp only [bind_error] at h
        cases h
        exact orIO_error h3
      | ok d2 =>
        rw [h3] at h
        simp only [bind_ok, pure_eq_ok] at h
        cases h

theorem fs_path_to_inode_ok_valid {fs : filesystem_t} {path : Str} {n : Nat}
    (h : fs_path_to_inode fs path = .ok n) : path_is_valid path = true := by
  unfold fs_path_to_inode at h
  split at h
  · cases h
  · rename_i hv
    simpa using hv

set_option maxRecDepth 4000 in
theorem fs_unlink_ok_free_inodes {fs : filesystem_t} {path : Str} {now : Nat}
    {fs2 : filesystem_t} {n : Nat} {ino : inode}
    (hres : fs_path_to_inode fs path = .ok n)
    (hread : inode_read fs.disk n = .ok ino)
    (hlinks : ino.links_count = 1)
    (htype : ¬ ino.type = INODE_TYPE_DIRECTORY)
    (h : fs_unlink fs path now = (SUCCESS, fs2)) :
    fs2.sb.free_inodes = inc32 fs.sb.free_inodes := by
  unfold fs_unlink at h
  split at h
  · have h1 := congrArg Prod.fst h
    simp [SUCCESS, ERROR_INVALID] at h1
  · split at h
    · rename_i e1 heq
      rw [hres] at heq
      cases heq
    · rename_i n1 heq
      rw [hres] at heq
      cases heq
      split at h
      · rename_i e1 heq2
        rw [hread] at heq2
        cases heq2
      · rename_i ino1 heq2
        rw [hread] at heq2
        cases heq2
        split at h
        · rename_i hty2
          exact absurd hty2 htype
        · split at h
          conv at h => zeta
          have hcnd : ({ ino with links_count := dec16 ino.links_count } :
              inode).links_count = 0 := by
            simp [hlinks, dec16, U16]
          split at h
          · -- the freeing computation errored
            rename_i e1 fsE1 heq3
            rw [if_pos hcnd] at heq3
            split at heq3
            · rename_i e2 heq4
              cases heq3
              have h2 := free_indirect_blocks_error heq4
              have h1 := congrArg Prod.fst h
              simp only [] at h1
              rw [h1] at h2
              simp [SUCCESS, ERROR_IO] at h2
            · conv at heq3 => zeta
              cases heq3
          · -- the freeing computation succeeded
            rename_i fs1x heq3
            rw [if_pos hcnd] at heq3
            split at heq3
            · cases heq3
            · conv at heq3 => zeta
              cases heq3
              -- the removal tail, on the freed state
              split at h
              · have h1 := congrArg Prod.fst h
                simp [SUCCESS, ERROR_INVALID] at h1
              · split at h
                · have h1 := congrArg Prod.fst h
                  simp [SUCCESS, ERROR_INVALID] at h1
                · split at h
                  · rename_i e2 heq6
                    have h2 := fs_path_to_inode_error heq6
                    have h1 := congrArg Prod.fst h
                    simp only [] at h1
                    rw [h1] at h2
                    rcases h2 with h2 | h2 <;>
                      simp [SUCCESS, ERROR_INVALID, ERROR_NOT_FOUND] at h2
                  · split at h
                    · rename_i e2 heq7
                      have h2 := dentry_remove_error heq7
                      have h1 := congrArg Prod.fst h
                      simp only [] at h1
                      rw [h1] at h2
                      rcases h2 with h2 | h2 | h2 <;>
                        simp [SUCCESS, ERROR_INVALID, ERROR_IO,
                          ERROR_NOT_FOUND] at h2
                    · split at h
                      · have h1 := congrArg Prod.fst h
                        simp [SUCCESS, ERROR_IO] at h1
                      · rename_i fs3 heqsv
                        split at h
                        · have h1 := congrArg Prod.fst h
                          simp [SUCCESS, ERROR_IO] at h1
                        · have h2x := congrArg Prod.snd h
                          simp only [] at h2x
                          rw [← h2x]
                          have hsb3 := (save_bitmaps_ok heqsv).1
                          simp [hsb3]


theorem pathx_valid : path_is_valid ['/', 'x'] = true := by
  simp [path_is_valid, path_parse, splitComps, PATH_SEPARATOR, filename_is_valid,
    MAX_PATH, MAX_FILENAME, CURRENT_DIR, PARENT_DIR]

theorem pathx_parse : path_parse ['/', 'x'] = some ⟨true, [['x']]⟩ := by
  simp [path_parse, splitComps, PATH_SEPARATOR]

theorem pathx_norm : path_normalize ['/', 'x'] = some ['/', 'x'] := by
  simp [path_normalize, pathx_parse, normComps, normStep, renderPath, joinComps,
    CURRENT_DIR, PARENT_DIR, PATH_SEPARATOR]

theorem pathx_split : path_split ['/', 'x'] = .ok (['/'], ['x']) := by
  simp [path_split, remove_trailing_slashes, PATH_SEPARATOR, MAX_FILENAME,
    ERROR_INVALID, List.takeWhile]

theorem pathsep_valid : path_is_valid ['/'] = true := by
  simp [path_is_valid, path_parse, splitComps, PATH_SEPARATOR, filename_is_valid,
    MAX_PATH, MAX_FILENAME, CURRENT_DIR, PARENT_DIR]

theorem pathsep_norm : path_normalize ['/'] = some ['/'] := by
  simp [path_normalize, path_parse, splitComps, normComps, normStep, renderPath,
    joinComps, CURRENT_DIR, PARENT_DIR, PATH_SEPARATOR]

theorem demo_resolve_root (fsx : filesystem_t) :
    fs_path_to_inode fsx ['/'] = .ok ROOT_INODE_NUM := by
  simp only [fs_path_to_inode, pathsep_valid, pathsep_norm]
  rfl

theorem demo_prepare_x : fs_prepare_create fsDemo ['/', 'x'] = .ok (['/'], ['x'], 1) := by
  simp only [fs_prepare_create, pathx_valid, pathx_norm, pathx_split,
    demo_resolve_root]
  rfl

theorem fsDemo_create_unlink_roundtrip :
    (fs_create fsDemo ['/', 'x'] 420 0).1 = SUCCESS ∧
    (fs_unlink (fs_create fsDemo ['/', 'x'] 420 0).2 ['/', 'x'] 1).1 = SUCCESS ∧
    (fs_unlink (fs_create fsDemo ['/', 'x'] 420 0).2 ['/', 'x'] 1).2.sb.free_inodes
      = fsDemo.sb.free_inodes ∧
    fs_stat (fs_unlink (fs_create fsDemo ['/', 'x'] 420 0).2 ['/', 'x'] 1).2 ['/', 'x']
      = .error ERROR_NOT_FOUND := by
  have hbs : BLOCK_SIZE / INODE_SIZE = 4 := by decide
  have hfindi : bitmap_find_first_free (⟨[true, true, true, false]⟩ : bitmap) = 3 := rfl
  have hfindb : bitmap_find_first_free
      (⟨[true, true, true, true, false, false, false, false]⟩ : bitmap) = 4 := rfl
  have hdp : BLOCK_SIZE / DENTRY_SIZE = 2 := by decide
  refine ⟨?_, ?_, ?_, ?_⟩ <;>
  · simp only [fs_create, demo_prepare_x]
    simp [fs_unlink, fs_stat, inode_alloc, hbs, hfindi, hfindb, hdp,
      bitmap_set, bitmap_get, bitmap_clear, dentry_create, dentry_is_valid_name,
      dentry_is_valid, dentry_add, dentry_find, find_in_blocks, scan_dentry_block,
      scan_slots, dentry_add_direct, dentry_add_in_block, fresh_dirent_block,
      DENTRIES_PER_BLOCK, zero_dentry, Block.asDirents, validate_parent_directory,
      dentry_remove, remove_in_blocks, remove_dentry_from_block,
      free_direct_blocks, free_indirect_blocks, inode_free,
      path_is_valid, path_parse, splitComps, path_normalize, normComps, normStep,
      renderPath, joinComps, path_is_root, path_split, remove_trailing_slashes,
      filename_is_valid, fs_path_to_inode, fs_walk, ROOT_INODE_NUM,
      fsDemo, sbDemo, rootInoDemo, fileInoDemo, zero_inode,
      disk_read_block, disk_write_block, inode_write, inode_read, superblock_read,
      superblock_is_valid, inode_get_disk_position, orIO, writeIgnore,
      Block.asSb, Block.asInodes, U32, MAGIC_NUMBER, inc32, dec32, inc16, dec16, U16,
      SUPERBLOCK_BLOCK_NUM, DISK_ERROR_INVALID_BLOCK, zero_superblock,
      save_bitmaps, save_bitmap_region, bitmap_block_bits, superblock_write,
      Bind.bind, Except.bind, pure, Except.pure,
      SUCCESS, ERROR_NOT_FOUND, ERROR_INVALID, ERROR_IO, ERROR_EXISTS,
      INODE_TYPE_FILE, INODE_TYPE_DIRECTORY, INODE_TYPE_FREE,
      MAX_FILENAME, MAX_PATH, PATH_SEPARATOR, CURRENT_DIR, PARENT_DIR]


/-- The counter half of the create/unlink round trip, in general: a
successful `fs_create` debits `free_inodes` by one and a successful
`fs_unlink` of a resolved singly-linked non-directory credits it by one, so
the counter returns exactly to its pre-create value (all counters are
32-bit). -/
theorem create_unlink_free_inodes_restored
    (fs : filesystem_t) (path : Str) (perms now now2 : Nat)
    (fs1 fs2 : filesystem_t) (n : Nat) (ino : inode)
    (hU : fs.sb.free_inodes < U32)
    (hc : fs_create fs path perms now = (SUCCESS, fs1))
    (hres : fs_path_to_inode fs1 path = .ok n)
    (hread : inode_read fs1.disk n = .ok ino)
    (hlinks : ino.links_count = 1)
    (htype : ¬ ino.type = INODE_TYPE_DIRECTORY)
    (hu : fs_unlink fs1 path now2 = (SUCCESS, fs2)) :
    fs2.sb.free_inodes = fs.sb.free_inodes := by
  have h1 := fs_create_ok_free_inodes hc
  have h2 := fs_unlink_ok_free_inodes hres hread hlinks htype hu
  rw [h2, h1]
  exact inc32_dec32 hU

end WTS
